import Mathlib

/-! Port status model, classifier and address selector of `types/zedroutertypes.go`.

A shallow embedding of the management-port functions of
`src/types/zedroutertypes.go` (`rotate`, `getMgmtPortsImpl`, `getLocalAddrImpl`,
`getInterfaceAddr`, `getInterfaceAndAddr`, `IsPort`, `IsMgmtPort`, `IsFreeMgmtPort`,
`GetMgmtPort`, `GetMgmtPortFromAddr`, `ReportPorts`, `AdapterToIfName`).

Conventions of the embedding:
* Go slices are Lean lists; a `for ... range` loop is a structural recursion that
  threads the loop variables, a `continue` is the recursive call on the tail.
* Go `int` values are `Int`; Go's `%` truncates toward zero, which is `Int.tmod`.
* A Go run-time panic (slice bounds, index out of range, division by zero) is an
  explicit outcome: `none` for functions returning a plain value, `GoResult.fault`
  for functions returning `(value, error)`.
* `net.IP` is a list of bytes; `To4`, `IsLinkLocalUnicast` and `Equal` follow the Go
  standard library.
-/

namespace Zedrouter

/-! ## Data model -/

/-- The Go type `net.IP`: a slice of bytes (4 bytes for IPv4, 16 for IPv6). -/
abbrev IP := List Nat

/-- Length of an IPv4 address in bytes (`net.IPv4len`). -/
def IPv4len : Nat := 4

/-- Length of an IPv6 address in bytes (`net.IPv6len`). -/
def IPv6len : Nat := 16

/-- The Go library function `net.IP.To4`: the 4-byte form of an IPv4 address, also out of
its IPv4-in-IPv6 form, `none` (Go `nil`) otherwise. -/
def IP.To4 (ip : IP) : Option IP :=
  if ip.length = IPv4len then some ip
  else if ip.length = IPv6len ∧ (ip.take 10).all (fun b => b == 0) ∧
      ip.getD 10 0 = 0xff ∧ ip.getD 11 0 = 0xff then
    some ((ip.drop 12).take 4)
  else none

/-- The Go library function `net.IP.IsLinkLocalUnicast`: `169.254.0.0/16` for IPv4,
`fe80::/10` for IPv6. -/
def IP.IsLinkLocalUnicast (ip : IP) : Bool :=
  match ip.To4 with
  | some ip4 => ip4.getD 0 0 == 169 && ip4.getD 1 0 == 254
  | none => ip.length == IPv6len && ip.getD 0 0 == 0xfe && (ip.getD 1 0 &&& 0xc0) == 0x80

/-- The 12 bytes that precede an IPv4 address in its IPv6 form (`v4InV6Prefix` of the Go
library). -/
def v4InV6Pfx : List Nat := [0, 0, 0, 0, 0, 0, 0, 0, 0, 0, 0xff, 0xff]

/-- The Go library function `net.IP.Equal`: byte equality, an IPv4 address being equal to
its IPv6 form. -/
def IP.Equal (ip x : IP) : Bool :=
  if ip.length = x.length then ip == x
  else if ip.length = IPv4len ∧ x.length = IPv6len then
    x.take 12 == v4InV6Pfx && ip == x.drop 12
  else if ip.length = IPv6len ∧ x.length = IPv4len then
    ip.take 12 == v4InV6Pfx && ip.drop 12 == x
  else false

/-- The record `AddrInfo`. `Geo` (an `ipinfo.IPInfo`) and the timestamp are payload that no
function of the selector reads. -/
structure AddrInfo where
  Addr : IP
  Geo : String
  LastGeoTimestamp : Int
  deriving DecidableEq, Repr

/-- The record `NetworkPortStatus`. The embedded `NetworkObjectConfig` and `ProxyConfig`
are payload that no function of the selector reads; each is carried as one field. -/
structure NetworkPortStatus where
  IfName : String
  Name : String
  IsMgmt : Bool
  Free : Bool
  NetworkObjectConfig : String
  AddrInfoList : List AddrInfo
  ProxyConfig : String
  Error : String
  ErrorTime : Int
  deriving DecidableEq, Repr

/-- The type `DevicePortConfigVersion` (a `uint32` on which only comparisons are made). -/
abbrev DevicePortConfigVersion := Nat

/-- Constant `DPCInitial` (`iota` = 0). -/
def DPCInitial : DevicePortConfigVersion := 0

/-- Constant `DPCIsMgmt` (`iota` = 1): IsMgmt is required for management ports. -/
def DPCIsMgmt : DevicePortConfigVersion := 1

/-- The record `DeviceNetworkStatus`. -/
structure DeviceNetworkStatus where
  Version : DevicePortConfigVersion
  Ports : List NetworkPortStatus
  deriving DecidableEq, Repr

/-- Outcome of a Go function of result type `(T, error)`: a value with a `nil` error, a
non-`nil` error, or a run-time panic. -/
inductive GoResult (α : Type) where
  | ret (val : α) : GoResult α
  | err (msg : String) : GoResult α
  | fault : GoResult α
  deriving DecidableEq, Repr

/-! ## `rotate` and the management-port lists -/

/-- The function `rotate`. `arr[amount:]` and `arr[:amount]` panic unless
`0 ≤ amount ≤ len(arr)`; the panic is `none`. -/
def rotate (arr : List String) (amount : Int) : Option (List String) :=
  if arr.length = 0 then some []
  else
    let amount := Int.tmod amount arr.length
    if 0 ≤ amount ∧ amount ≤ arr.length then
      some (arr.drop amount.toNat ++ arr.take amount.toNat)
    else none

/-- The loop of `getMgmtPortsImpl`; `ports` is the slice built so far. -/
def getMgmtPortsImpl.loop (version : DevicePortConfigVersion) (freeOnly nonfreeOnly : Bool) :
    List NetworkPortStatus → List String → List String
  | [], ports => ports
  | us :: rest, ports =>
    if freeOnly && !us.Free then
      getMgmtPortsImpl.loop version freeOnly nonfreeOnly rest ports
    else if nonfreeOnly && us.Free then
      getMgmtPortsImpl.loop version freeOnly nonfreeOnly rest ports
    else if decide (version ≥ DPCIsMgmt) && !us.IsMgmt then
      getMgmtPortsImpl.loop version freeOnly nonfreeOnly rest ports
    else
      getMgmtPortsImpl.loop version freeOnly nonfreeOnly rest (ports ++ [us.IfName])

/-- The function `getMgmtPortsImpl` (returns the IfNames); `none` is a panic of `rotate`. -/
def getMgmtPortsImpl (globalStatus : DeviceNetworkStatus) (rotation : Int)
    (freeOnly nonfreeOnly : Bool) : Option (List String) :=
  rotate (getMgmtPortsImpl.loop globalStatus.Version freeOnly nonfreeOnly
    globalStatus.Ports []) rotation

/-- The function `GetMgmtPortsAny`. -/
def GetMgmtPortsAny (globalStatus : DeviceNetworkStatus) (rotation : Int) :
    Option (List String) :=
  getMgmtPortsImpl globalStatus rotation false false

/-- The function `GetMgmtPortsFree`. -/
def GetMgmtPortsFree (globalStatus : DeviceNetworkStatus) (rotation : Int) :
    Option (List String) :=
  getMgmtPortsImpl globalStatus rotation true false

/-- The function `GetMgmtPortsNonFree`. -/
def GetMgmtPortsNonFree (globalStatus : DeviceNetworkStatus) (rotation : Int) :
    Option (List String) :=
  getMgmtPortsImpl globalStatus rotation false true

/-! ## Name resolution and classifier predicates -/

/-- First loop of `AdapterToIfName`: the IfName of the first port whose Name is `adapter`. -/
def AdapterToIfName.byName (adapter : String) : List NetworkPortStatus → Option String
  | [] => none
  | p :: rest => if p.Name == adapter then some p.IfName else AdapterToIfName.byName adapter rest

/-- Second loop of `AdapterToIfName`: `adapter` when some port has it as IfName. -/
def AdapterToIfName.byIfName (adapter : String) : List NetworkPortStatus → Option String
  | [] => none
  | p :: rest =>
    if p.IfName == adapter then some adapter else AdapterToIfName.byIfName adapter rest

/-- The function `AdapterToIfName` (the log lines left out). -/
def AdapterToIfName (deviceNetworkStatus : DeviceNetworkStatus) (adapter : String) : String :=
  match AdapterToIfName.byName adapter deviceNetworkStatus.Ports with
  | some ifname => ifname
  | none =>
    match AdapterToIfName.byIfName adapter deviceNetworkStatus.Ports with
    | some ifname => ifname
    | none => adapter

/-- The loop of `IsPort`. -/
def IsPort.loop (port : String) : List NetworkPortStatus → Bool
  | [] => false
  | us :: rest =>
    if us.Name != port && us.IfName != port then IsPort.loop port rest
    else true

/-- The function `IsPort`. -/
def IsPort (globalStatus : DeviceNetworkStatus) (port : String) : Bool :=
  IsPort.loop port globalStatus.Ports

/-- The loop of `IsMgmtPort`. -/
def IsMgmtPort.loop (version : DevicePortConfigVersion) (port : String) :
    List NetworkPortStatus → Bool
  | [] => false
  | us :: rest =>
    if us.Name != port && us.IfName != port then IsMgmtPort.loop version port rest
    else if decide (version ≥ DPCIsMgmt) && !us.IsMgmt then IsMgmtPort.loop version port rest
    else true

/-- The function `IsMgmtPort`. -/
def IsMgmtPort (globalStatus : DeviceNetworkStatus) (port : String) : Bool :=
  IsMgmtPort.loop globalStatus.Version port globalStatus.Ports

/-- The loop of `IsFreeMgmtPort`. -/
def IsFreeMgmtPort.loop (version : DevicePortConfigVersion) (port : String) :
    List NetworkPortStatus → Bool
  | [] => false
  | us :: rest =>
    if us.Name != port && us.IfName != port then IsFreeMgmtPort.loop version port rest
    else if decide (version ≥ DPCIsMgmt) && !us.IsMgmt then
      IsFreeMgmtPort.loop version port rest
    else us.Free

/-- The function `IsFreeMgmtPort`. -/
def IsFreeMgmtPort (globalStatus : DeviceNetworkStatus) (port : String) : Bool :=
  IsFreeMgmtPort.loop globalStatus.Version port globalStatus.Ports

/-- The loop of `GetMgmtPort`. -/
def GetMgmtPort.loop (version : DevicePortConfigVersion) (port : String) :
    List NetworkPortStatus → Option NetworkPortStatus
  | [] => none
  | us :: rest =>
    if us.Name != port && us.IfName != port then GetMgmtPort.loop version port rest
    else if decide (version ≥ DPCIsMgmt) && !us.IsMgmt then GetMgmtPort.loop version port rest
    else some us

/-- The function `GetMgmtPort`; the returned pointer is to the loop variable, a copy of the
port, and `nil` is `none`. -/
def GetMgmtPort (globalStatus : DeviceNetworkStatus) (port : String) :
    Option NetworkPortStatus :=
  GetMgmtPort.loop globalStatus.Version port globalStatus.Ports

/-- The inner loop of `GetMgmtPortFromAddr`: is some address of the list `Equal` to `addr`. -/
def GetMgmtPortFromAddr.hasAddr (addr : IP) : List AddrInfo → Bool
  | [] => false
  | i :: rest => if i.Addr.Equal addr then true else GetMgmtPortFromAddr.hasAddr addr rest

/-- The outer loop of `GetMgmtPortFromAddr`. -/
def GetMgmtPortFromAddr.loop (version : DevicePortConfigVersion) (addr : IP) :
    List NetworkPortStatus → String
  | [] => ""
  | us :: rest =>
    if decide (version ≥ DPCIsMgmt) && !us.IsMgmt then
      GetMgmtPortFromAddr.loop version addr rest
    else if GetMgmtPortFromAddr.hasAddr addr us.AddrInfoList then us.IfName
    else GetMgmtPortFromAddr.loop version addr rest

/-- The function `GetMgmtPortFromAddr`. -/
def GetMgmtPortFromAddr (globalStatus : DeviceNetworkStatus) (addr : IP) : String :=
  GetMgmtPortFromAddr.loop globalStatus.Version addr globalStatus.Ports

/-- The loop of `ReportPorts`; `names` is the slice built so far. -/
def ReportPorts.loop : List NetworkPortStatus → List String → List String
  | [], names => names
  | port :: rest, names => ReportPorts.loop rest (names ++ [port.Name])

/-- The function `ReportPorts`. -/
def ReportPorts (deviceNetworkStatus : DeviceNetworkStatus) : List String :=
  ReportPorts.loop deviceNetworkStatus.Ports ([] ++ ["dbo1x0"])

/-! ## Address selection -/

/-- The inner loop of `getInterfaceAddr`; `addrs` is the slice built so far. -/
def getInterfaceAddr.addrLoop (includeLinkLocal : Bool) : List AddrInfo → List IP → List IP
  | [], addrs => addrs
  | i :: rest, addrs =>
    if includeLinkLocal || !i.Addr.IsLinkLocalUnicast then
      getInterfaceAddr.addrLoop includeLinkLocal rest (addrs ++ [i.Addr])
    else getInterfaceAddr.addrLoop includeLinkLocal rest addrs

/-- The outer loop of `getInterfaceAddr`; the state is `(freeAddrs, nonfreeAddrs)`. The
test that picks the slice to extend is on the argument `free`, as in the source. -/
def getInterfaceAddr.loop (version : DevicePortConfigVersion) (free : Bool) (ifname : String)
    (includeLinkLocal : Bool) : List NetworkPortStatus → List IP × List IP → List IP × List IP
  | [], acc => acc
  | us :: rest, (freeAddrs, nonfreeAddrs) =>
    if free && !us.Free then
      getInterfaceAddr.loop version free ifname includeLinkLocal rest (freeAddrs, nonfreeAddrs)
    else if decide (version ≥ DPCIsMgmt) && !us.IsMgmt then
      getInterfaceAddr.loop version free ifname includeLinkLocal rest (freeAddrs, nonfreeAddrs)
    else if us.IfName != ifname && ifname != "" then
      getInterfaceAddr.loop version free ifname includeLinkLocal rest (freeAddrs, nonfreeAddrs)
    else
      let addrs := getInterfaceAddr.addrLoop includeLinkLocal us.AddrInfoList []
      if free then
        getInterfaceAddr.loop version free ifname includeLinkLocal rest
          (freeAddrs ++ addrs, nonfreeAddrs)
      else
        getInterfaceAddr.loop version free ifname includeLinkLocal rest
          (freeAddrs, nonfreeAddrs ++ addrs)

/-- The function `getInterfaceAddr`: the pair `(addrs, err)`, `err = none` for `nil`. -/
def getInterfaceAddr (globalStatus : DeviceNetworkStatus) (free : Bool) (port : String)
    (includeLinkLocal : Bool) : List IP × Option String :=
  let ifname := if port != "" then AdapterToIfName globalStatus port else port
  let acc := getInterfaceAddr.loop globalStatus.Version free ifname includeLinkLocal
    globalStatus.Ports ([], [])
  let addrs := acc.1 ++ acc.2
  if addrs.length != 0 then (addrs, none)
  else ([], some "No good IP address")

/-- The function `getLocalAddrImpl`. `pickNum % numAddrs` panics when `numAddrs` is zero
and `addrs[pickNum]` panics unless `0 ≤ pickNum < len(addrs)`; both are `fault`. -/
def getLocalAddrImpl (globalStatus : DeviceNetworkStatus) (pickNum : Int) (port : String)
    (freeOnly includeLinkLocal : Bool) : GoResult IP :=
  match getInterfaceAddr globalStatus freeOnly port includeLinkLocal with
  | (_, some err) => GoResult.err err
  | (addrs, none) =>
    let numAddrs : Int := addrs.length
    if numAddrs = 0 then GoResult.fault
    else
      let pickNum := Int.tmod pickNum numAddrs
      if 0 ≤ pickNum then
        match addrs[pickNum.toNat]? with
        | some a => GoResult.ret a
        | none => GoResult.fault
      else GoResult.fault

/-- The function `GetLocalAddrAny`. -/
def GetLocalAddrAny (globalStatus : DeviceNetworkStatus) (pickNum : Int) (port : String) :
    GoResult IP :=
  getLocalAddrImpl globalStatus pickNum port false true

/-- The function `GetLocalAddrAnyNoLinkLocal`. -/
def GetLocalAddrAnyNoLinkLocal (globalStatus : DeviceNetworkStatus) (pickNum : Int)
    (port : String) : GoResult IP :=
  getLocalAddrImpl globalStatus pickNum port false false

/-- The function `GetLocalAddrFreeNoLinkLocal`. -/
def GetLocalAddrFreeNoLinkLocal (globalStatus : DeviceNetworkStatus) (pickNum : Int)
    (port : String) : GoResult IP :=
  getLocalAddrImpl globalStatus pickNum port true false

/-- The function `CountLocalAddrAnyNoLinkLocal`. -/
def CountLocalAddrAnyNoLinkLocal (globalStatus : DeviceNetworkStatus) : Nat :=
  (getInterfaceAddr globalStatus false "" false).1.length

/-- The function `CountLocalAddrAnyNoLinkLocalIf`. -/
def CountLocalAddrAnyNoLinkLocalIf (globalStatus : DeviceNetworkStatus) (port : String) :
    Nat :=
  (getInterfaceAddr globalStatus false port false).1.length

/-- The function `CountLocalAddrFreeNoLinkLocal`. -/
def CountLocalAddrFreeNoLinkLocal (globalStatus : DeviceNetworkStatus) : Nat :=
  (getInterfaceAddr globalStatus true "" false).1.length

/-- The inner loop of `getInterfaceAndAddr` (link-local addresses excluded); `addrs` is the
slice built so far. -/
def getInterfaceAndAddr.addrLoop : List AddrInfo → List AddrInfo → List AddrInfo
  | [], addrs => addrs
  | a :: rest, addrs =>
    if !a.Addr.IsLinkLocalUnicast then getInterfaceAndAddr.addrLoop rest (addrs ++ [a])
    else getInterfaceAndAddr.addrLoop rest addrs

/-- The zero value of `NetworkPortStatus`. -/
def NetworkPortStatus.zero : NetworkPortStatus :=
  { IfName := "", Name := "", IsMgmt := false, Free := false, NetworkObjectConfig := "",
    AddrInfoList := [], ProxyConfig := "", Error := "", ErrorTime := 0 }

/-- The outer loop of `getInterfaceAndAddr`; `links` is the slice built so far. -/
def getInterfaceAndAddr.loop (version : DevicePortConfigVersion) (free : Bool)
    (ifname : String) (includeLinkLocal : Bool) :
    List NetworkPortStatus → List NetworkPortStatus → List NetworkPortStatus
  | [], links => links
  | us :: rest, links =>
    if decide (version ≥ DPCIsMgmt) && !us.IsMgmt then
      getInterfaceAndAddr.loop version free ifname includeLinkLocal rest links
    else if free && !us.Free then
      getInterfaceAndAddr.loop version free ifname includeLinkLocal rest links
    else if us.IfName != ifname && ifname != "" then
      getInterfaceAndAddr.loop version free ifname includeLinkLocal rest links
    else if includeLinkLocal then
      let link : NetworkPortStatus :=
        { NetworkPortStatus.zero with
          IfName := us.IfName, AddrInfoList := us.AddrInfoList, Name := us.Name }
      getInterfaceAndAddr.loop version free ifname includeLinkLocal rest (links ++ [link])
    else
      let addrs := getInterfaceAndAddr.addrLoop us.AddrInfoList []
      let link : NetworkPortStatus :=
        { NetworkPortStatus.zero with IfName := us.IfName, Name := us.Name }
      if addrs.length > 0 then
        getInterfaceAndAddr.loop version free ifname includeLinkLocal rest
          (links ++ [{ link with AddrInfoList := addrs }])
      else
        getInterfaceAndAddr.loop version free ifname includeLinkLocal rest links

/-- The function `getInterfaceAndAddr`: the pair `(links, err)`, `err = none` for `nil`. -/
def getInterfaceAndAddr (globalStatus : DeviceNetworkStatus) (free : Bool) (port : String)
    (includeLinkLocal : Bool) : List NetworkPortStatus × Option String :=
  let ifname := if port != "" then AdapterToIfName globalStatus port else port
  let links := getInterfaceAndAddr.loop globalStatus.Version free ifname includeLinkLocal
    globalStatus.Ports []
  if links.length != 0 then (links, none)
  else ([], some "No good MgmtPorts")

/-- The function `GetMgmtPortsFreeNoLinkLocal`. -/
def GetMgmtPortsFreeNoLinkLocal (globalStatus : DeviceNetworkStatus) :
    List NetworkPortStatus :=
  (getInterfaceAndAddr globalStatus true "" false).1

/-! ## Specification-side vocabulary

The definitions of this section follow the words of the specification, not the code: they
are what the functions above are compared with. -/

/-- A port is management-eligible under a schema version: the version predates the
management flag (`Version < DPCIsMgmt`) or the port has `IsMgmt` set. -/
def mgmtEligible (version : DevicePortConfigVersion) (us : NetworkPortStatus) : Bool :=
  decide (version < DPCIsMgmt) || us.IsMgmt

/-- The cost filter of the port lists: Free if `freeOnly`, not Free if `nonfreeOnly`. -/
def costOk (freeOnly nonfreeOnly : Bool) (us : NetworkPortStatus) : Bool :=
  (!freeOnly || us.Free) && (!nonfreeOnly || !us.Free)

/-- The IfNames, in status order, of the management-eligible ports that pass the cost
filter. -/
def eligibleIfNames (globalStatus : DeviceNetworkStatus) (freeOnly nonfreeOnly : Bool) :
    List String :=
  (globalStatus.Ports.filter
    (fun us => mgmtEligible globalStatus.Version us && costOk freeOnly nonfreeOnly us)).map
    (fun us => us.IfName)

/-- An address qualifies: any address when link-local ones are included, otherwise one that
is not link-local unicast. -/
def qualifies (includeLinkLocal : Bool) (i : AddrInfo) : Bool :=
  includeLinkLocal || !i.Addr.IsLinkLocalUnicast

/-- The qualifying addresses of one port, in the order of its `AddrInfoList`. -/
def qualifyingAddrs (includeLinkLocal : Bool) (us : NetworkPortStatus) : List IP :=
  (us.AddrInfoList.filter (qualifies includeLinkLocal)).map (fun i => i.Addr)

/-- The interface name the address walkers filter on: `AdapterToIfName` of a non-empty
`port`, the empty string (no restriction) for an empty `port`. -/
def resolvedIfName (globalStatus : DeviceNetworkStatus) (port : String) : String :=
  if port != "" then AdapterToIfName globalStatus port else port

/-- A port is selected by the address walkers: management-eligible, Free when `free` is
set, and of interface name `ifname` when `ifname` is non-empty. -/
def selectedPort (version : DevicePortConfigVersion) (free : Bool) (ifname : String)
    (us : NetworkPortStatus) : Bool :=
  (!free || us.Free) && mgmtEligible version us && (us.IfName == ifname || ifname == "")

/-- The qualifying addresses of the selected ports, port after port in status order. -/
def selectedAddrs (version : DevicePortConfigVersion) (free : Bool) (ifname : String)
    (includeLinkLocal : Bool) (ports : List NetworkPortStatus) : List IP :=
  (ports.filter (selectedPort version free ifname)).flatMap (qualifyingAddrs includeLinkLocal)

/-- Whether an outcome is a returned error. -/
def GoResult.isErr {α : Type} : GoResult α → Bool
  | GoResult.err _ => true
  | _ => false

/-! ## Concrete statuses used in the examples -/

/-- A port record with the given identity, flags and addresses, the payload left at its
zero value. -/
def mkPort (ifName name : String) (isMgmt free : Bool) (addrs : List IP) : NetworkPortStatus :=
  { NetworkPortStatus.zero with
    IfName := ifName, Name := name, IsMgmt := isMgmt, Free := free,
    AddrInfoList := addrs.map (fun a => { Addr := a, Geo := "", LastGeoTimestamp := 0 }) }

/-- The scenario of the specification: `eth0` free with `10.0.0.5`, `eth1` non-free with
`10.0.1.5`, both management ports, `Version = DPCIsMgmt`. -/
def scenario : DeviceNetworkStatus :=
  { Version := DPCIsMgmt,
    Ports := [mkPort "eth0" "" true true [[10, 0, 0, 5]],
              mkPort "eth1" "" true false [[10, 0, 1, 5]]] }

/-- The scenario with its two ports swapped: the non-free `eth1` first, the free `eth0`
second. -/
def scenarioSwapped : DeviceNetworkStatus :=
  { Version := DPCIsMgmt,
    Ports := [mkPort "eth1" "" true false [[10, 0, 1, 5]],
              mkPort "eth0" "" true true [[10, 0, 0, 5]]] }

/-- A status whose first port has the logical name `x` and an empty interface name and no
address, and whose second port `eth1` holds `10.0.1.5`. -/
def blankIfNameStatus : DeviceNetworkStatus :=
  { Version := DPCIsMgmt,
    Ports := [mkPort "" "x" true true [],
              mkPort "eth1" "y" true true [[10, 0, 1, 5]]] }

/-- Eligibility of a port for address selection in the words of the claim on the error
outcome: management-eligible, Free when `freeOnly` is set, of interface name
`AdapterToIfName(status, port)` when `port` is non-empty, and with at least one qualifying
address. -/
def claimedEligible (globalStatus : DeviceNetworkStatus) (freeOnly : Bool) (port : String)
    (includeLinkLocal : Bool) (us : NetworkPortStatus) : Bool :=
  mgmtEligible globalStatus.Version us && (!freeOnly || us.Free) &&
    (port == "" || us.IfName == AdapterToIfName globalStatus port) &&
    us.AddrInfoList.any (qualifies includeLinkLocal)

/-- Eligibility of a port for address selection with the restriction read off the resolved
interface name: management-eligible, Free when `freeOnly` is set, of interface name
`resolvedIfName status port` when that name is non-empty, and with at least one qualifying
address. -/
def resolvedEligible (globalStatus : DeviceNetworkStatus) (freeOnly : Bool) (port : String)
    (includeLinkLocal : Bool) (us : NetworkPortStatus) : Bool :=
  mgmtEligible globalStatus.Version us && (!freeOnly || us.Free) &&
    (resolvedIfName globalStatus port == "" ||
      us.IfName == resolvedIfName globalStatus port) &&
    us.AddrInfoList.any (qualifies includeLinkLocal)

/-- The uniqueness invariant of the data model: interface names pairwise distinct, and
non-empty logical names pairwise distinct. -/
def uniqueNames (globalStatus : DeviceNetworkStatus) : Prop :=
  (globalStatus.Ports.map (fun us => us.IfName)).Nodup ∧
  ((globalStatus.Ports.filter (fun us => us.Name != "")).map (fun us => us.Name)).Nodup

/-- No port's logical name is the interface name of another port. -/
def noCrossNames (globalStatus : DeviceNetworkStatus) : Prop :=
  ∀ p ∈ globalStatus.Ports, ∀ q ∈ globalStatus.Ports, q.Name = p.IfName → q = p

/-- A status that satisfies the uniqueness invariant, in which the logical name of the
management port `eth1` is `eth0`, the interface name of the non-management first port. -/
def crossNamedStatus : DeviceNetworkStatus :=
  { Version := DPCIsMgmt,
    Ports := [mkPort "eth0" "a" false false [],
              mkPort "eth1" "eth0" true false []] }

/-- A status with distinct names, `eth0` a non-management port named `lan` and `eth1` a
management port named `wan`. -/
def mixedStatus : DeviceNetworkStatus :=
  { Version := DPCIsMgmt,
    Ports := [mkPort "eth0" "lan" false true [[10, 0, 0, 5]],
              mkPort "eth1" "wan" true false [[169, 254, 7, 7]]] }

/-- The status `mixedStatus` under the old schema version. -/
def mixedStatusOld : DeviceNetworkStatus :=
  { mixedStatus with Version := DPCInitial }

/-- A name matches a port: it is the port's logical Name or its IfName. -/
def nameMatches (name : String) (us : NetworkPortStatus) : Bool :=
  us.Name == name || us.IfName == name

/-- The free-management predicate in the words of the claim on first-match-wins: the first
port in status order whose Name or IfName is `name` is management-eligible and Free. -/
def firstMatchFreeMgmt (globalStatus : DeviceNetworkStatus) (name : String) : Bool :=
  match globalStatus.Ports.find? (nameMatches name) with
  | some us => mgmtEligible globalStatus.Version us && us.Free
  | none => false

/-- A port holds an address: some entry of its `AddrInfoList` is `Equal` to it. -/
def holdsAddr (addr : IP) (us : NetworkPortStatus) : Bool :=
  us.AddrInfoList.any (fun i => i.Addr.Equal addr)

/-- A status that satisfies the uniqueness invariant, in which the free management port
`eth1` has the logical name `eth0`, the interface name of the non-management first port. -/
def shadowedStatus : DeviceNetworkStatus :=
  { Version := DPCIsMgmt,
    Ports := [mkPort "eth0" "a" false false [],
              mkPort "eth1" "eth0" true true []] }

/-- The management-eligible ports of a status, in status order. -/
def eligiblePorts (globalStatus : DeviceNetworkStatus) : List NetworkPortStatus :=
  globalStatus.Ports.filter (mgmtEligible globalStatus.Version)

/-- A port record with its `IsMgmt` flag cleared. -/
def clearIsMgmt (us : NetworkPortStatus) : NetworkPortStatus :=
  { us with IsMgmt := false }

/-- Two statuses differ only in the `IsMgmt` flags of their ports: same Version, and the
same ports once the flags are cleared. -/
def sameUpToIsMgmt (s1 s2 : DeviceNetworkStatus) : Prop :=
  s1.Version = s2.Version ∧ s1.Ports.map clearIsMgmt = s2.Ports.map clearIsMgmt

/-- The status `mixedStatusOld` with the `IsMgmt` flag of each port flipped. -/
def mixedStatusOldFlipped : DeviceNetworkStatus :=
  { Version := DPCInitial,
    Ports := [mkPort "eth0" "lan" true true [[10, 0, 0, 5]],
              mkPort "eth1" "wan" false false [[169, 254, 7, 7]]] }

/-- The entries of a port's `AddrInfoList` whose address is not link-local unicast, in
order. -/
def nonLinkLocalAddrs (us : NetworkPortStatus) : List AddrInfo :=
  us.AddrInfoList.filter (fun a => !a.Addr.IsLinkLocalUnicast)

/-- The record that `getInterfaceAndAddr` builds for a port when link-local addresses are
excluded: IfName, Name and the non-link-local addresses, everything else at its zero
value. -/
def linkRecord (us : NetworkPortStatus) : NetworkPortStatus :=
  { NetworkPortStatus.zero with
    IfName := us.IfName, Name := us.Name, AddrInfoList := nonLinkLocalAddrs us }

/-- Every address occurs on at most one port of the status, an address occurring on a port
when the port holds an address `Equal` to it. -/
def addrsOnOnePort (globalStatus : DeviceNetworkStatus) : Prop :=
  ∀ p ∈ globalStatus.Ports, ∀ q ∈ globalStatus.Ports, ∀ x : IP,
    holdsAddr x p = true → holdsAddr x q = true → p = q

/-- The addresses of the records of a list, record after record, in order. -/
def recordAddrs (links : List NetworkPortStatus) : List IP :=
  links.flatMap (fun r => r.AddrInfoList.map (fun i => i.Addr))

/-! ## Lemmas on the loops -/

theorem rotate_of_nonneg (arr : List String) (k : Int) (hk : 0 ≤ k) :
    rotate arr k = some (arr.rotate k.toNat) := by
  unfold rotate
  by_cases h0 : arr.length = 0
  · have : arr = [] := List.length_eq_zero.mp h0
    subst this
    simp
  · have hpos : (0 : Int) < (arr.length : Int) := by
      have : 0 < arr.length := Nat.pos_of_ne_zero h0
      exact_mod_cast this
    have hmod : Int.tmod k arr.length = k % (arr.length : Int) :=
      Int.tmod_eq_emod hk (le_of_lt hpos)
    have h1 : 0 ≤ k % (arr.length : Int) := Int.emod_nonneg _ (ne_of_gt hpos)
    have h2 : k % (arr.length : Int) < arr.length := Int.emod_lt_of_pos _ hpos
    have h3 : (k % (arr.length : Int)).toNat = k.toNat % arr.length := by
      obtain ⟨m, rfl⟩ := Int.eq_ofNat_of_zero_le hk
      have hc : ((m : Int) % (arr.length : Int)) = ((m % arr.length : Nat) : Int) := by
        norm_cast
      rw [hc, Int.toNat_ofNat, Int.toNat_ofNat]
    simp only [h0, if_false, hmod]
    rw [if_pos ⟨h1, le_of_lt h2⟩, h3, List.rotate_eq_drop_append_take_mod]

theorem getMgmtPortsImpl_loop_eq (version : DevicePortConfigVersion) (freeOnly nonfreeOnly : Bool)
    (ps : List NetworkPortStatus) (ports : List String) :
    getMgmtPortsImpl.loop version freeOnly nonfreeOnly ps ports =
      ports ++ (ps.filter
        (fun us => mgmtEligible version us && costOk freeOnly nonfreeOnly us)).map
        (fun us => us.IfName) := by
  induction ps generalizing ports with
  | nil => simp [getMgmtPortsImpl.loop]
  | cons us rest ih =>
    unfold getMgmtPortsImpl.loop
    simp only [ih, mgmtEligible, costOk, DPCIsMgmt, List.filter_cons]
    cases freeOnly <;> cases nonfreeOnly <;> cases hF : us.Free <;> cases hM : us.IsMgmt <;>
      rcases Nat.lt_or_ge version 1 with hv | hv <;>
      simp [hv, Nat.not_le.mpr, Nat.not_lt.mpr]

theorem getMgmtPortsImpl_eq (gs : DeviceNetworkStatus) (rotation : Int)
    (freeOnly nonfreeOnly : Bool) :
    getMgmtPortsImpl gs rotation freeOnly nonfreeOnly =
      rotate (eligibleIfNames gs freeOnly nonfreeOnly) rotation := by
  simp [getMgmtPortsImpl, eligibleIfNames, getMgmtPortsImpl_loop_eq]

theorem getInterfaceAddr_addrLoop_eq (ill : Bool) (l : List AddrInfo) (addrs : List IP) :
    getInterfaceAddr.addrLoop ill l addrs =
      addrs ++ (l.filter (qualifies ill)).map (fun i => i.Addr) := by
  induction l generalizing addrs with
  | nil => simp [getInterfaceAddr.addrLoop]
  | cons i rest ih =>
    unfold getInterfaceAddr.addrLoop
    by_cases h : (ill || !i.Addr.IsLinkLocalUnicast) = true
    · rw [if_pos h, ih]
      simp [List.filter_cons, qualifies, h]
    · rw [if_neg h, ih]
      simp [List.filter_cons, qualifies, h]

theorem selectedPort_eq (version : DevicePortConfigVersion) (free : Bool) (ifname : String)
    (us : NetworkPortStatus) :
    selectedPort version free ifname us =
      (!(free && !us.Free) && !(decide (version ≥ DPCIsMgmt) && !us.IsMgmt) &&
        !(us.IfName != ifname && ifname != "")) := by
  unfold selectedPort mgmtEligible DPCIsMgmt
  simp only [bne]
  generalize (us.IfName == ifname) = b1
  generalize (ifname == "") = b2
  cases free <;> cases us.Free <;> cases us.IsMgmt <;> cases b1 <;> cases b2 <;>
    rcases Nat.lt_or_ge version 1 with hv | hv <;>
    simp [hv, Nat.not_le.mpr, Nat.not_lt.mpr]

theorem selectedAddrs_cons (version : DevicePortConfigVersion) (free : Bool) (ifname : String)
    (ill : Bool) (us : NetworkPortStatus) (rest : List NetworkPortStatus) :
    selectedAddrs version free ifname ill (us :: rest) =
      (if selectedPort version free ifname us then qualifyingAddrs ill us else []) ++
        selectedAddrs version free ifname ill rest := by
  by_cases h : selectedPort version free ifname us = true <;>
    simp [selectedAddrs, List.filter_cons, h]

theorem getInterfaceAddr_loop_eq (version : DevicePortConfigVersion) (free : Bool)
    (ifname : String) (ill : Bool) (ps : List NetworkPortStatus) (fa nfa : List IP) :
    getInterfaceAddr.loop version free ifname ill ps (fa, nfa) =
      if free then (fa ++ selectedAddrs version free ifname ill ps, nfa)
      else (fa, nfa ++ selectedAddrs version free ifname ill ps) := by
  induction ps generalizing fa nfa with
  | nil => cases free <;> simp [getInterfaceAddr.loop, selectedAddrs]
  | cons us rest ih =>
    unfold getInterfaceAddr.loop
    rw [selectedAddrs_cons, selectedPort_eq]
    by_cases c1 : (free && !us.Free) = true
    · rw [if_pos c1, ih]; simp [c1]
    · rw [if_neg c1]
      by_cases c2 : (decide (version ≥ DPCIsMgmt) && !us.IsMgmt) = true
      · rw [if_pos c2, ih]; simp [c2]
      · rw [if_neg c2]
        by_cases c3 : (us.IfName != ifname && ifname != "") = true
        · rw [if_pos c3, ih]; simp [c3]
        · rw [if_neg c3]
          have hq : getInterfaceAddr.addrLoop ill us.AddrInfoList [] =
              qualifyingAddrs ill us := by
            simp [getInterfaceAddr_addrLoop_eq, qualifyingAddrs]
          simp only [hq, Bool.not_eq_true] at c1 c2 c3 ⊢
          cases free <;> simp [ih, c1, c2, c3]

theorem getInterfaceAddr_fst (gs : DeviceNetworkStatus) (free : Bool) (port : String)
    (ill : Bool) :
    (getInterfaceAddr gs free port ill).1 =
      selectedAddrs gs.Version free (resolvedIfName gs port) ill gs.Ports := by
  unfold getInterfaceAddr
  simp only [getInterfaceAddr_loop_eq]
  have hr : (if (port != "") = true then AdapterToIfName gs port else port) =
      resolvedIfName gs port := rfl
  rw [hr]
  generalize selectedAddrs gs.Version free (resolvedIfName gs port) ill gs.Ports = X
  cases free <;> by_cases hX : X = [] <;> simp [hX]

theorem getInterfaceAddr_snd (gs : DeviceNetworkStatus) (free : Bool) (port : String)
    (ill : Bool) :
    (getInterfaceAddr gs free port ill).2 =
      if selectedAddrs gs.Version free (resolvedIfName gs port) ill gs.Ports = [] then
        some "No good IP address" else none := by
  unfold getInterfaceAddr
  simp only [getInterfaceAddr_loop_eq]
  have hr : (if (port != "") = true then AdapterToIfName gs port else port) =
      resolvedIfName gs port := rfl
  rw [hr]
  generalize selectedAddrs gs.Version free (resolvedIfName gs port) ill gs.Ports = X
  cases free <;> by_cases hX : X = [] <;> simp [hX]

theorem selectedAddrs_eq_nil_iff (gs : DeviceNetworkStatus) (free : Bool) (port : String)
    (ill : Bool) :
    selectedAddrs gs.Version free (resolvedIfName gs port) ill gs.Ports = [] ↔
      ∀ us ∈ gs.Ports, resolvedEligible gs free port ill us = false := by
  unfold selectedAddrs
  rw [List.flatMap_eq_nil_iff]
  constructor
  · intro h us hus
    by_cases hsel : selectedPort gs.Version free (resolvedIfName gs port) us = true
    · have hq := h us (List.mem_filter.mpr ⟨hus, hsel⟩)
      have hany : us.AddrInfoList.any (qualifies ill) = false := by
        rw [Bool.eq_false_iff]
        intro hany
        obtain ⟨i, hi, hqi⟩ := List.any_eq_true.mp hany
        have hmem : i.Addr ∈ qualifyingAddrs ill us :=
          List.mem_map.mpr ⟨i, List.mem_filter.mpr ⟨hi, hqi⟩, rfl⟩
        rw [hq] at hmem
        exact List.not_mem_nil _ hmem
      simp [resolvedEligible, hany]
    · have hsel2 : selectedPort gs.Version free (resolvedIfName gs port) us = false := by
        simpa using hsel
      unfold selectedPort at hsel2
      unfold resolvedEligible
      cases hf : free <;> cases hF : us.Free <;> cases hm : mgmtEligible gs.Version us <;>
        cases hb1 : (us.IfName == resolvedIfName gs port) <;>
        cases hb2 : (resolvedIfName gs port == "") <;>
        simp [hf, hF, hm, hb1, hb2] at hsel2 ⊢
  · intro h us hus
    obtain ⟨hmem, hsel⟩ := List.mem_filter.mp hus
    have he := h us hmem
    have hany : us.AddrInfoList.any (qualifies ill) = false := by
      unfold selectedPort at hsel
      unfold resolvedEligible at he
      cases hf : free <;> cases hF : us.Free <;> cases hm : mgmtEligible gs.Version us <;>
        cases hb1 : (us.IfName == resolvedIfName gs port) <;>
        cases hb2 : (resolvedIfName gs port == "") <;>
        simp [hf, hF, hm, hb1, hb2] at hsel he ⊢ <;> assumption
    unfold qualifyingAddrs
    rw [List.map_eq_nil_iff, List.filter_eq_nil_iff]
    intro i hi hq
    have : us.AddrInfoList.any (qualifies ill) = true := List.any_eq_true.mpr ⟨i, hi, hq⟩
    rw [hany] at this
    exact Bool.noConfusion this

theorem getLocalAddrImpl_of_nil (gs : DeviceNetworkStatus) (pickNum : Int) (port : String)
    (free ill : Bool)
    (h : selectedAddrs gs.Version free (resolvedIfName gs port) ill gs.Ports = []) :
    getLocalAddrImpl gs pickNum port free ill = GoResult.err "No good IP address" := by
  have h2 := getInterfaceAddr_snd gs free port ill
  rw [if_pos h] at h2
  unfold getLocalAddrImpl
  rcases hg : getInterfaceAddr gs free port ill with ⟨addrs, e⟩
  rw [hg] at h2
  simp only at h2
  subst h2
  rfl

theorem getLocalAddrImpl_of_ne_nil (gs : DeviceNetworkStatus) (pickNum : Int) (port : String)
    (free ill : Bool)
    (h : selectedAddrs gs.Version free (resolvedIfName gs port) ill gs.Ports ≠ []) :
    getLocalAddrImpl gs pickNum port free ill =
      (if 0 ≤ Int.tmod pickNum
          ((selectedAddrs gs.Version free (resolvedIfName gs port) ill gs.Ports).length : Int)
       then
        match (selectedAddrs gs.Version free (resolvedIfName gs port) ill gs.Ports)[(Int.tmod
          pickNum ((selectedAddrs gs.Version free (resolvedIfName gs port) ill
            gs.Ports).length : Int)).toNat]? with
        | some a => GoResult.ret a
        | none => GoResult.fault
       else GoResult.fault) := by
  have h1 := getInterfaceAddr_fst gs free port ill
  have h2 := getInterfaceAddr_snd gs free port ill
  rw [if_neg h] at h2
  unfold getLocalAddrImpl
  rcases hg : getInterfaceAddr gs free port ill with ⟨addrs, e⟩
  rw [hg] at h1 h2
  simp only at h1 h2
  subst h1 h2
  have hlen : ((selectedAddrs gs.Version free (resolvedIfName gs port) ill gs.Ports).length
      : Int) ≠ 0 := by
    intro h0
    exact h (List.length_eq_zero.mp (by exact_mod_cast h0))
  simp only [hlen, if_false]

theorem getLocalAddrImpl_of_nonneg (gs : DeviceNetworkStatus) (pickNum : Int) (port : String)
    (free ill : Bool) (hp : 0 ≤ pickNum)
    (h : selectedAddrs gs.Version free (resolvedIfName gs port) ill gs.Ports ≠ []) :
    ∃ a, (selectedAddrs gs.Version free (resolvedIfName gs port) ill gs.Ports)[(pickNum %
        ((selectedAddrs gs.Version free (resolvedIfName gs port) ill gs.Ports).length
          : Int)).toNat]? = some a ∧
      getLocalAddrImpl gs pickNum port free ill = GoResult.ret a := by
  rw [getLocalAddrImpl_of_ne_nil gs pickNum port free ill h]
  generalize selectedAddrs gs.Version free (resolvedIfName gs port) ill gs.Ports = X at h ⊢
  have hpos : (0 : Int) < (X.length : Int) := by
    have : 0 < X.length := List.length_pos.mpr h
    exact_mod_cast this
  have hmod : Int.tmod pickNum X.length = pickNum % (X.length : Int) :=
    Int.tmod_eq_emod hp (le_of_lt hpos)
  have h1 : 0 ≤ pickNum % (X.length : Int) := Int.emod_nonneg _ (ne_of_gt hpos)
  have h2 : pickNum % (X.length : Int) < X.length := Int.emod_lt_of_pos _ hpos
  have h3 : (pickNum % (X.length : Int)).toNat < X.length := by omega
  rw [hmod, if_pos h1]
  refine ⟨X[(pickNum % (X.length : Int)).toNat], ?_, ?_⟩
  · exact List.getElem?_eq_getElem h3
  · rw [List.getElem?_eq_getElem h3]

theorem rotate_rotate_back_of_nonneg (arr : List String) (k : Int) (hne : arr ≠ [])
    (hk : 0 ≤ k) :
    ∃ r, rotate arr k = some r ∧
      rotate r ((arr.length : Int) - k % (arr.length : Int)) = some arr := by
  have hpos : 0 < arr.length := List.length_pos.mpr hne
  have hposZ : (0 : Int) < (arr.length : Int) := by exact_mod_cast hpos
  have h2 : k % (arr.length : Int) < arr.length := Int.emod_lt_of_pos _ hposZ
  have h1 : 0 ≤ k % (arr.length : Int) := Int.emod_nonneg _ (ne_of_gt hposZ)
  refine ⟨arr.rotate k.toNat, rotate_of_nonneg arr k hk, ?_⟩
  rw [rotate_of_nonneg _ _ (by omega), List.rotate_rotate]
  obtain ⟨m, rfl⟩ := Int.eq_ofNat_of_zero_le hk
  have hc : ((m : Int) % (arr.length : Int)) = ((m % arr.length : Nat) : Int) := by
    norm_cast
  have hlt : m % arr.length < arr.length := Nat.mod_lt _ hpos
  have hsum : (m : Int).toNat + ((arr.length : Int) - (m : Int) % (arr.length : Int)).toNat =
      arr.length * (m / arr.length + 1) := by
    rw [hc, Int.toNat_ofNat]
    have : ((arr.length : Int) - ((m % arr.length : Nat) : Int)).toNat =
        arr.length - m % arr.length := by omega
    rw [this]
    have hdm := Nat.div_add_mod m arr.length
    rw [Nat.mul_add, Nat.mul_one]
    omega
  rw [hsum, List.rotate_length_mul]

theorem filterMap_getElem?_range {α : Type} (l : List α) :
    (List.range l.length).filterMap (fun j => l[j]?) = l := by
  induction l with
  | nil => rfl
  | cons a t ih =>
    rw [List.length_cons, List.range_succ_eq_map, List.filterMap_cons, List.filterMap_map]
    simp only [List.getElem?_cons_zero]
    congr 1
    have hfun : ((fun j => (a :: t)[j]?) ∘ Nat.succ) = fun j => t[j]? := by
      funext j
      simp
    rw [hfun, ih]

theorem isPort_loop_iff (port : String) (ps : List NetworkPortStatus) :
    IsPort.loop port ps = true ↔ ∃ us ∈ ps, us.Name = port ∨ us.IfName = port := by
  induction ps with
  | nil => simp [IsPort.loop]
  | cons us rest ih =>
    unfold IsPort.loop
    by_cases h1 : us.Name = port <;> by_cases h2 : us.IfName = port <;> simp [h1, h2, ih]

theorem isMgmtPort_loop_iff (version : DevicePortConfigVersion) (port : String)
    (ps : List NetworkPortStatus) :
    IsMgmtPort.loop version port ps = true ↔
      ∃ us ∈ ps, (us.Name = port ∨ us.IfName = port) ∧ mgmtEligible version us = true := by
  induction ps with
  | nil => simp [IsMgmtPort.loop]
  | cons us rest ih =>
    unfold IsMgmtPort.loop
    have hm : (decide (version ≥ DPCIsMgmt) && !us.IsMgmt) = !mgmtEligible version us := by
      unfold mgmtEligible DPCIsMgmt
      cases us.IsMgmt <;> rcases Nat.lt_or_ge version 1 with hv | hv <;>
        simp [hv, Nat.not_le.mpr, Nat.not_lt.mpr]
    rw [hm]
    by_cases h1 : us.Name = port <;> by_cases h2 : us.IfName = port <;>
      cases hE : mgmtEligible version us <;> simp [h1, h2, hE, ih]

theorem selectedPort_no_filter (version : DevicePortConfigVersion) :
    selectedPort version false "" = mgmtEligible version := by
  funext us
  simp [selectedPort]

/-! ## Lemmas on the classifier loops and name resolution -/

theorem mgmt_skip_eq (version : DevicePortConfigVersion) (us : NetworkPortStatus) :
    (decide (version ≥ DPCIsMgmt) && !us.IsMgmt) = !mgmtEligible version us := by
  unfold mgmtEligible DPCIsMgmt
  cases us.IsMgmt <;> rcases Nat.lt_or_ge version 1 with hv | hv <;>
    simp [hv, Nat.not_le.mpr, Nat.not_lt.mpr]

theorem name_skip_eq (port : String) (us : NetworkPortStatus) :
    (us.Name != port && us.IfName != port) = !nameMatches port us := by
  unfold nameMatches
  simp only [bne]
  cases (us.Name == port) <;> cases (us.IfName == port) <;> rfl

theorem byName_eq_find (adapter : String) (ps : List NetworkPortStatus) :
    AdapterToIfName.byName adapter ps =
      (ps.find? (fun p => p.Name == adapter)).map (fun p => p.IfName) := by
  induction ps with
  | nil => rfl
  | cons p rest ih =>
    unfold AdapterToIfName.byName
    by_cases h : (p.Name == adapter) = true
    · simp [h]
    · simp only [h, if_false, ih]
      simp [List.find?_cons, h]

theorem byIfName_eq (adapter : String) (ps : List NetworkPortStatus) (x : String)
    (h : AdapterToIfName.byIfName adapter ps = some x) : x = adapter := by
  induction ps with
  | nil => simp [AdapterToIfName.byIfName] at h
  | cons p rest ih =>
    unfold AdapterToIfName.byIfName at h
    by_cases hp : (p.IfName == adapter) = true
    · simp [hp] at h
      exact h.symm
    · simp only [hp, if_false] at h
      exact ih h

theorem adapterToIfName_of_no_name (gs : DeviceNetworkStatus) (adapter : String)
    (h : gs.Ports.find? (fun p => p.Name == adapter) = none) :
    AdapterToIfName gs adapter = adapter := by
  unfold AdapterToIfName
  rw [byName_eq_find, h]
  simp only [Option.map_none']
  cases hb : AdapterToIfName.byIfName adapter gs.Ports with
  | none => rfl
  | some x => exact byIfName_eq adapter gs.Ports x hb

theorem adapterToIfName_of_name (gs : DeviceNetworkStatus) (adapter : String)
    (p : NetworkPortStatus) (h : gs.Ports.find? (fun q => q.Name == adapter) = some p) :
    AdapterToIfName gs adapter = p.IfName := by
  unfold AdapterToIfName
  rw [byName_eq_find, h]
  rfl

theorem isFreeMgmtPort_loop_eq (version : DevicePortConfigVersion) (port : String)
    (ps : List NetworkPortStatus) :
    IsFreeMgmtPort.loop version port ps =
      match ps.find? (fun us => nameMatches port us && mgmtEligible version us) with
      | some us => us.Free
      | none => false := by
  induction ps with
  | nil => rfl
  | cons us rest ih =>
    unfold IsFreeMgmtPort.loop
    rw [name_skip_eq, mgmt_skip_eq, ih, List.find?_cons]
    cases nameMatches port us <;> cases mgmtEligible version us <;> simp

theorem getMgmtPort_loop_eq (version : DevicePortConfigVersion) (port : String)
    (ps : List NetworkPortStatus) :
    GetMgmtPort.loop version port ps =
      ps.find? (fun us => nameMatches port us && mgmtEligible version us) := by
  induction ps with
  | nil => rfl
  | cons us rest ih =>
    unfold GetMgmtPort.loop
    rw [name_skip_eq, mgmt_skip_eq, ih, List.find?_cons]
    cases nameMatches port us <;> cases mgmtEligible version us <;> simp

theorem isMgmtPort_loop_eq (version : DevicePortConfigVersion) (port : String)
    (ps : List NetworkPortStatus) :
    IsMgmtPort.loop version port ps =
      (ps.find? (fun us => nameMatches port us && mgmtEligible version us)).isSome := by
  induction ps with
  | nil => rfl
  | cons us rest ih =>
    unfold IsMgmtPort.loop
    rw [name_skip_eq, mgmt_skip_eq, ih, List.find?_cons]
    cases nameMatches port us <;> cases mgmtEligible version us <;> simp

theorem hasAddr_eq_any (addr : IP) (l : List AddrInfo) :
    GetMgmtPortFromAddr.hasAddr addr l = l.any (fun i => i.Addr.Equal addr) := by
  induction l with
  | nil => rfl
  | cons i rest ih =>
    unfold GetMgmtPortFromAddr.hasAddr
    rw [ih, List.any_cons]
    cases i.Addr.Equal addr <;> simp

theorem getMgmtPortFromAddr_loop_eq (version : DevicePortConfigVersion) (addr : IP)
    (ps : List NetworkPortStatus) :
    GetMgmtPortFromAddr.loop version addr ps =
      match ps.find? (fun us => mgmtEligible version us && holdsAddr addr us) with
      | some us => us.IfName
      | none => "" := by
  induction ps with
  | nil => rfl
  | cons us rest ih =>
    unfold GetMgmtPortFromAddr.loop
    rw [mgmt_skip_eq, hasAddr_eq_any, ih, List.find?_cons]
    unfold holdsAddr
    cases mgmtEligible version us <;>
      cases us.AddrInfoList.any (fun i => i.Addr.Equal addr) <;> simp

/-! ## Lemmas on clearing the `IsMgmt` flags under the old schema -/

theorem getMgmtPortsImpl_loop_clear (version : DevicePortConfigVersion)
    (hv : version < DPCIsMgmt) (freeOnly nonfreeOnly : Bool) (ps : List NetworkPortStatus)
    (ports : List String) :
    getMgmtPortsImpl.loop version freeOnly nonfreeOnly (ps.map clearIsMgmt) ports =
      getMgmtPortsImpl.loop version freeOnly nonfreeOnly ps ports := by
  have hd : decide (version ≥ DPCIsMgmt) = false := by simp [Nat.not_le.mpr hv]
  induction ps generalizing ports with
  | nil => rfl
  | cons us rest ih =>
    simp only [List.map_cons, getMgmtPortsImpl.loop, hd, Bool.false_and, ih, clearIsMgmt]

theorem getInterfaceAddr_loop_clear (version : DevicePortConfigVersion)
    (hv : version < DPCIsMgmt) (free : Bool) (ifname : String) (ill : Bool)
    (ps : List NetworkPortStatus) (acc : List IP × List IP) :
    getInterfaceAddr.loop version free ifname ill (ps.map clearIsMgmt) acc =
      getInterfaceAddr.loop version free ifname ill ps acc := by
  have hd : decide (version ≥ DPCIsMgmt) = false := by simp [Nat.not_le.mpr hv]
  induction ps generalizing acc with
  | nil => rfl
  | cons us rest ih =>
    obtain ⟨fa, nfa⟩ := acc
    simp only [List.map_cons, getInterfaceAddr.loop, hd, Bool.false_and, ih, clearIsMgmt]

theorem byName_clear (adapter : String) (ps : List NetworkPortStatus) :
    AdapterToIfName.byName adapter (ps.map clearIsMgmt) =
      AdapterToIfName.byName adapter ps := by
  induction ps with
  | nil => rfl
  | cons us rest ih =>
    simp only [List.map_cons, AdapterToIfName.byName, ih, clearIsMgmt]

theorem byIfName_clear (adapter : String) (ps : List NetworkPortStatus) :
    AdapterToIfName.byIfName adapter (ps.map clearIsMgmt) =
      AdapterToIfName.byIfName adapter ps := by
  induction ps with
  | nil => rfl
  | cons us rest ih =>
    simp only [List.map_cons, AdapterToIfName.byIfName, ih, clearIsMgmt]

theorem getMgmtPortFromAddr_loop_clear (version : DevicePortConfigVersion)
    (hv : version < DPCIsMgmt) (addr : IP) (ps : List NetworkPortStatus) :
    GetMgmtPortFromAddr.loop version addr (ps.map clearIsMgmt) =
      GetMgmtPortFromAddr.loop version addr ps := by
  have hd : decide (version ≥ DPCIsMgmt) = false := by simp [Nat.not_le.mpr hv]
  induction ps with
  | nil => rfl
  | cons us rest ih =>
    simp only [List.map_cons, GetMgmtPortFromAddr.loop, hd, Bool.false_and, ih, clearIsMgmt]

theorem isMgmtPort_loop_clear (version : DevicePortConfigVersion)
    (hv : version < DPCIsMgmt) (port : String) (ps : List NetworkPortStatus) :
    IsMgmtPort.loop version port (ps.map clearIsMgmt) = IsMgmtPort.loop version port ps := by
  have hd : decide (version ≥ DPCIsMgmt) = false := by simp [Nat.not_le.mpr hv]
  induction ps with
  | nil => rfl
  | cons us rest ih =>
    simp only [List.map_cons, IsMgmtPort.loop, hd, Bool.false_and, ih, clearIsMgmt]

theorem isFreeMgmtPort_loop_clear (version : DevicePortConfigVersion)
    (hv : version < DPCIsMgmt) (port : String) (ps : List NetworkPortStatus) :
    IsFreeMgmtPort.loop version port (ps.map clearIsMgmt) =
      IsFreeMgmtPort.loop version port ps := by
  have hd : decide (version ≥ DPCIsMgmt) = false := by simp [Nat.not_le.mpr hv]
  induction ps with
  | nil => rfl
  | cons us rest ih =>
    simp only [List.map_cons, IsFreeMgmtPort.loop, hd, Bool.false_and, ih, clearIsMgmt]

theorem getInterfaceAddr_clear (gs : DeviceNetworkStatus) (hv : gs.Version < DPCIsMgmt)
    (free : Bool) (port : String) (ill : Bool) :
    getInterfaceAddr { Version := gs.Version, Ports := gs.Ports.map clearIsMgmt } free port
        ill =
      getInterfaceAddr gs free port ill := by
  simp only [getInterfaceAddr, AdapterToIfName, byName_clear, byIfName_clear,
    getInterfaceAddr_loop_clear gs.Version hv]

/-! ## Lemmas on the selected addresses and on `getInterfaceAndAddr` -/

theorem getLocalAddrImpl_ret_mem (gs : DeviceNetworkStatus) (pickNum : Int) (port : String)
    (free ill : Bool) (a : IP)
    (h : getLocalAddrImpl gs pickNum port free ill = GoResult.ret a) :
    a ∈ selectedAddrs gs.Version free (resolvedIfName gs port) ill gs.Ports := by
  by_cases hnil : selectedAddrs gs.Version free (resolvedIfName gs port) ill gs.Ports = []
  · rw [getLocalAddrImpl_of_nil gs pickNum port free ill hnil] at h
    exact GoResult.noConfusion h
  · rw [getLocalAddrImpl_of_ne_nil gs pickNum port free ill hnil] at h
    split at h
    · split at h
      · rename_i a2 hget
        have : a2 = a := by injection h
        rw [← this]
        exact List.getElem?_mem hget
      · exact GoResult.noConfusion h
    · exact GoResult.noConfusion h

theorem mem_selectedAddrs (version : DevicePortConfigVersion) (free : Bool) (ifname : String)
    (ill : Bool) (ps : List NetworkPortStatus) (a : IP)
    (h : a ∈ selectedAddrs version free ifname ill ps) :
    ∃ us ∈ ps, selectedPort version free ifname us = true ∧
      ∃ i ∈ us.AddrInfoList, qualifies ill i = true ∧ i.Addr = a := by
  unfold selectedAddrs at h
  obtain ⟨us, hus, ha⟩ := List.mem_flatMap.mp h
  obtain ⟨hmem, hsel⟩ := List.mem_filter.mp hus
  unfold qualifyingAddrs at ha
  obtain ⟨i, hi, hia⟩ := List.mem_map.mp ha
  obtain ⟨hi1, hi2⟩ := List.mem_filter.mp hi
  exact ⟨us, hmem, hsel, i, hi1, hi2, hia⟩

theorem getInterfaceAndAddr_addrLoop_eq (l addrs : List AddrInfo) :
    getInterfaceAndAddr.addrLoop l addrs =
      addrs ++ l.filter (fun a => !a.Addr.IsLinkLocalUnicast) := by
  induction l generalizing addrs with
  | nil => simp [getInterfaceAndAddr.addrLoop]
  | cons a rest ih =>
    unfold getInterfaceAndAddr.addrLoop
    cases h : a.Addr.IsLinkLocalUnicast <;> simp [ih, List.filter_cons, h]

theorem getInterfaceAndAddr_loop_noLinkLocal (version : DevicePortConfigVersion) (free : Bool)
    (ifname : String) (ps links : List NetworkPortStatus) :
    getInterfaceAndAddr.loop version free ifname false ps links =
      links ++ (ps.filter (fun us => selectedPort version free ifname us &&
        us.AddrInfoList.any (fun a => !a.Addr.IsLinkLocalUnicast))).map linkRecord := by
  induction ps generalizing links with
  | nil => simp [getInterfaceAndAddr.loop]
  | cons us rest ih =>
    unfold getInterfaceAndAddr.loop
    rw [List.filter_cons, selectedPort_eq]
    have hlen : (getInterfaceAndAddr.addrLoop us.AddrInfoList []).length > 0 ↔
        us.AddrInfoList.any (fun a => !a.Addr.IsLinkLocalUnicast) = true := by
      rw [getInterfaceAndAddr_addrLoop_eq, List.nil_append, gt_iff_lt, List.length_pos, ne_eq,
        List.filter_eq_nil_iff, List.any_eq_true]
      push_neg
      rfl
    have hrec : ({ ({ NetworkPortStatus.zero with IfName := us.IfName, Name := us.Name } :
        NetworkPortStatus) with
        AddrInfoList := getInterfaceAndAddr.addrLoop us.AddrInfoList [] } : NetworkPortStatus) =
        linkRecord us := by
      simp [linkRecord, nonLinkLocalAddrs, getInterfaceAndAddr_addrLoop_eq]
    by_cases c2 : (decide (version ≥ DPCIsMgmt) && !us.IsMgmt) = true
    · rw [if_pos c2, ih]; simp [c2]
    · rw [if_neg c2]
      by_cases c1 : (free && !us.Free) = true
      · rw [if_pos c1, ih]; simp [c1]
      · rw [if_neg c1]
        by_cases c3 : (us.IfName != ifname && ifname != "") = true
        · rw [if_pos c3, ih]; simp [c3]
        · rw [if_neg c3]
          simp only [Bool.false_eq_true, if_false]
          simp only [Bool.not_eq_true] at c1 c2 c3
          by_cases hany : us.AddrInfoList.any (fun a => !a.Addr.IsLinkLocalUnicast) = true
          · rw [if_pos (hlen.mpr hany), ih, hrec]
            simp [c1, c2, c3, hany]
          · rw [if_neg (fun hc => hany (hlen.mp hc)), ih]
            simp only [Bool.not_eq_true] at hany
            simp [c1, c2, c3, hany]

theorem getMgmtPortsFreeNoLinkLocal_eq (gs : DeviceNetworkStatus) :
    GetMgmtPortsFreeNoLinkLocal gs =
      (gs.Ports.filter (fun us => mgmtEligible gs.Version us && us.Free &&
        us.AddrInfoList.any (fun a => !a.Addr.IsLinkLocalUnicast))).map linkRecord := by
  unfold GetMgmtPortsFreeNoLinkLocal getInterfaceAndAddr
  simp only [getInterfaceAndAddr_loop_noLinkLocal, List.nil_append]
  have hp : (fun us => selectedPort gs.Version true "" us &&
      us.AddrInfoList.any (fun a => !a.Addr.IsLinkLocalUnicast)) =
      (fun us => mgmtEligible gs.Version us && us.Free &&
        us.AddrInfoList.any (fun a => !a.Addr.IsLinkLocalUnicast)) := by
    funext us
    unfold selectedPort
    cases mgmtEligible gs.Version us <;> cases us.Free <;> simp
  have hif : (if ("" != "") = true then AdapterToIfName gs "" else "") = "" := by simp
  rw [hif, hp]
  generalize (gs.Ports.filter (fun us => mgmtEligible gs.Version us && us.Free &&
    us.AddrInfoList.any (fun a => !a.Addr.IsLinkLocalUnicast))).map linkRecord = X
  by_cases hX : X = [] <;> simp [hX]

/-! ## Lemmas on `ReportPorts`, address equality and the two walkers -/

theorem reportPorts_loop_eq (ps : List NetworkPortStatus) (names : List String) :
    ReportPorts.loop ps names = names ++ ps.map (fun port => port.Name) := by
  induction ps generalizing names with
  | nil => simp [ReportPorts.loop]
  | cons port rest ih =>
    unfold ReportPorts.loop
    rw [ih]
    simp

theorem reportPorts_eq (gs : DeviceNetworkStatus) :
    ReportPorts gs = "dbo1x0" :: gs.Ports.map (fun port => port.Name) := by
  unfold ReportPorts
  rw [reportPorts_loop_eq]
  rfl

theorem ip_equal_self (a : IP) : IP.Equal a a = true := by
  unfold IP.Equal
  simp

theorem holdsAddr_of_mem (us : NetworkPortStatus) (i : AddrInfo) (hi : i ∈ us.AddrInfoList) :
    holdsAddr i.Addr us = true := by
  unfold holdsAddr
  exact List.any_eq_true.mpr ⟨i, hi, ip_equal_self i.Addr⟩

theorem selectedPort_eligible (version : DevicePortConfigVersion) (free : Bool)
    (ifname : String) (us : NetworkPortStatus)
    (h : selectedPort version free ifname us = true) : mgmtEligible version us = true := by
  unfold selectedPort at h
  cases hE : mgmtEligible version us
  · simp [hE] at h
  · rfl

theorem qualifyingAddrs_noLinkLocal (us : NetworkPortStatus) :
    qualifyingAddrs false us = (nonLinkLocalAddrs us).map (fun i => i.Addr) := by
  have hqf : qualifies false = fun a : AddrInfo => !a.Addr.IsLinkLocalUnicast := by
    funext a
    simp [qualifies]
  simp only [qualifyingAddrs, nonLinkLocalAddrs, hqf]

theorem recordAddrs_links_eq (version : DevicePortConfigVersion) (free : Bool)
    (ifname : String) (ps : List NetworkPortStatus) :
    recordAddrs ((ps.filter (fun us => selectedPort version free ifname us &&
        us.AddrInfoList.any (fun a => !a.Addr.IsLinkLocalUnicast))).map linkRecord) =
      selectedAddrs version free ifname false ps := by
  induction ps with
  | nil => rfl
  | cons us rest ih =>
    rw [selectedAddrs_cons, List.filter_cons]
    cases hsel : selectedPort version free ifname us
    · simpa using ih
    · cases hany : us.AddrInfoList.any (fun a => !a.Addr.IsLinkLocalUnicast)
      · have hnil : qualifyingAddrs false us = [] := by
          rw [qualifyingAddrs_noLinkLocal]
          unfold nonLinkLocalAddrs
          rw [List.map_eq_nil_iff, List.filter_eq_nil_iff]
          intro a ha hq
          have : us.AddrInfoList.any (fun a => !a.Addr.IsLinkLocalUnicast) = true :=
            List.any_eq_true.mpr ⟨a, ha, hq⟩
          rw [hany] at this
          exact Bool.noConfusion this
        simpa [hnil] using ih
      · have hrec : recordAddrs (linkRecord us :: (rest.filter
            (fun us => selectedPort version free ifname us &&
              us.AddrInfoList.any (fun a => !a.Addr.IsLinkLocalUnicast))).map linkRecord) =
            (nonLinkLocalAddrs us).map (fun i => i.Addr) ++
              recordAddrs ((rest.filter (fun us => selectedPort version free ifname us &&
                us.AddrInfoList.any (fun a => !a.Addr.IsLinkLocalUnicast))).map
                  linkRecord) := by
          simp [recordAddrs, linkRecord]
        simp only [Bool.and_self, if_true, List.map_cons, hrec, ih,
          qualifyingAddrs_noLinkLocal]

theorem getInterfaceAndAddr_noLinkLocal_eq (gs : DeviceNetworkStatus) (free : Bool)
    (port : String) :
    getInterfaceAndAddr gs free port false =
      if (gs.Ports.filter (fun us => selectedPort gs.Version free (resolvedIfName gs port) us &&
          us.AddrInfoList.any (fun a => !a.Addr.IsLinkLocalUnicast))).map linkRecord = [] then
        ([], some "No good MgmtPorts")
      else
        ((gs.Ports.filter (fun us => selectedPort gs.Version free (resolvedIfName gs port) us &&
          us.AddrInfoList.any (fun a => !a.Addr.IsLinkLocalUnicast))).map linkRecord, none) := by
  unfold getInterfaceAndAddr
  simp only [getInterfaceAndAddr_loop_noLinkLocal, List.nil_append]
  have hr : (if (port != "") = true then AdapterToIfName gs port else port) =
      resolvedIfName gs port := rfl
  rw [hr]
  generalize (gs.Ports.filter (fun us => selectedPort gs.Version free (resolvedIfName gs port) us
    && us.AddrInfoList.any (fun a => !a.Addr.IsLinkLocalUnicast))).map linkRecord = X
  by_cases hX : X = [] <;> simp [hX]

theorem scenario_addrsOnOnePort : addrsOnOnePort scenario := by
  intro p hp q hq x h1 h2
  simp only [scenario, List.mem_cons, List.mem_singleton, List.not_mem_nil, or_false]
    at hp hq
  rcases hp with rfl | rfl <;> rcases hq with rfl | rfl
  · rfl
  · simp only [holdsAddr, mkPort, List.map_cons, List.map_nil, List.any_cons,
      List.any_nil, Bool.or_false] at h1 h2
    unfold IP.Equal at h1 h2
    simp only [List.length_cons, List.length_nil] at h1 h2
    split at h1
    · rename_i hl
      simp only [hl, if_true] at h2
      have e1 : ([10, 0, 0, 5] : IP) = x := by simpa using h1
      have e2 : ([10, 0, 1, 5] : IP) = x := by simpa using h2
      rw [← e1] at e2
      exact absurd e2 (by decide)
    · rename_i hl
      simp only [IPv4len, IPv6len, true_and] at h1 h2
      have hl2 : ¬ (0 + 1 + 1 + 1 + 1 = x.length) := hl
      simp only [hl2, if_false] at h2
      split at h1
      · rename_i h16
        simp only [h16, if_true] at h2
        simp only [Bool.and_eq_true, beq_iff_eq] at h1 h2
        have := h1.2.trans h2.2.symm
        exact absurd this (by decide)
      · simp at h1
  · simp only [holdsAddr, mkPort, List.map_cons, List.map_nil, List.any_cons,
      List.any_nil, Bool.or_false] at h1 h2
    unfold IP.Equal at h1 h2
    simp only [List.length_cons, List.length_nil] at h1 h2
    split at h1
    · rename_i hl
      simp only [hl, if_true] at h2
      have e1 : ([10, 0, 1, 5] : IP) = x := by simpa using h1
      have e2 : ([10, 0, 0, 5] : IP) = x := by simpa using h2
      rw [← e1] at e2
      exact absurd e2 (by decide)
    · rename_i hl
      simp only [IPv4len, IPv6len, true_and] at h1 h2
      have hl2 : ¬ (0 + 1 + 1 + 1 + 1 = x.length) := hl
      simp only [hl2, if_false] at h2
      split at h1
      · rename_i h16
        simp only [h16, if_true] at h2
        simp only [Bool.and_eq_true, beq_iff_eq] at h1 h2
        have := h1.2.trans h2.2.symm
        exact absurd this (by decide)
      · simp at h1
  · rfl

/-! ## Lemmas on the port restriction of the address walkers -/

theorem getLocalAddrImpl_isErr_iff_resolved (gs : DeviceNetworkStatus) (pickNum : Int)
    (port : String) (freeOnly includeLinkLocal : Bool) :
    (getLocalAddrImpl gs pickNum port freeOnly includeLinkLocal).isErr = true ↔
      ∀ us ∈ gs.Ports, resolvedEligible gs freeOnly port includeLinkLocal us = false := by
  rw [← selectedAddrs_eq_nil_iff]
  constructor
  · intro herr
    by_contra hne
    rw [getLocalAddrImpl_of_ne_nil gs pickNum port freeOnly includeLinkLocal hne] at herr
    split at herr
    · split at herr <;> simp [GoResult.isErr] at herr
    · simp [GoResult.isErr] at herr
  · intro h
    rw [getLocalAddrImpl_of_nil gs pickNum port freeOnly includeLinkLocal h]
    rfl

theorem adapterToIfName_ne_empty (gs : DeviceNetworkStatus) (port : String)
    (hif : ∀ us ∈ gs.Ports, us.IfName ≠ "") (hport : port ≠ "") :
    AdapterToIfName gs port ≠ "" := by
  cases hf : gs.Ports.find? (fun q => q.Name == port) with
  | some p =>
    rw [adapterToIfName_of_name gs port p hf]
    exact hif p (List.mem_of_find?_eq_some hf)
  | none =>
    rw [adapterToIfName_of_no_name gs port hf]
    exact hport

theorem claimedEligible_eq_resolved (gs : DeviceNetworkStatus) (freeOnly : Bool)
    (port : String) (ill : Bool) (us : NetworkPortStatus)
    (hif : ∀ us ∈ gs.Ports, us.IfName ≠ "") :
    claimedEligible gs freeOnly port ill us = resolvedEligible gs freeOnly port ill us := by
  unfold claimedEligible resolvedEligible
  by_cases hport : port = ""
  · have hr : resolvedIfName gs port = "" := by
      rw [hport]
      simp [resolvedIfName]
    rw [hr, hport]
    simp
  · have hr : resolvedIfName gs port = AdapterToIfName gs port := by
      simp [resolvedIfName, hport]
    have hne := adapterToIfName_ne_empty gs port hif hport
    rw [hr]
    have h1 : (port == "") = false := by simpa using hport
    have h2 : (AdapterToIfName gs port == "") = false := by simpa using hne
    rw [h1, h2]

theorem getLocalAddrImpl_isErr_iff_of_ifnames (gs : DeviceNetworkStatus) (pickNum : Int)
    (port : String) (freeOnly includeLinkLocal : Bool)
    (hif : ∀ us ∈ gs.Ports, us.IfName ≠ "") :
    (getLocalAddrImpl gs pickNum port freeOnly includeLinkLocal).isErr = true ↔
      ∀ us ∈ gs.Ports, claimedEligible gs freeOnly port includeLinkLocal us = false := by
  rw [getLocalAddrImpl_isErr_iff_resolved]
  constructor
  · intro h us hus
    rw [claimedEligible_eq_resolved gs freeOnly port includeLinkLocal us hif]
    exact h us hus
  · intro h us hus
    rw [← claimedEligible_eq_resolved gs freeOnly port includeLinkLocal us hif]
    exact h us hus

theorem getLocalAddr_port_restricted_of_resolved (gs : DeviceNetworkStatus) (pickNum : Int)
    (port : String) (a : IP)
    (hport : port ≠ "") (hres : AdapterToIfName gs port ≠ "")
    (hret : GetLocalAddrAny gs pickNum port = GoResult.ret a ∨
      GetLocalAddrAnyNoLinkLocal gs pickNum port = GoResult.ret a) :
    ∃ us ∈ gs.Ports, mgmtEligible gs.Version us = true ∧
      us.IfName = AdapterToIfName gs port ∧ ∃ i ∈ us.AddrInfoList, i.Addr = a := by
  have hr : resolvedIfName gs port = AdapterToIfName gs port := by
    simp [resolvedIfName, hport]
  have key : ∀ ill : Bool, getLocalAddrImpl gs pickNum port false ill = GoResult.ret a →
      ∃ us ∈ gs.Ports, mgmtEligible gs.Version us = true ∧
        us.IfName = AdapterToIfName gs port ∧ ∃ i ∈ us.AddrInfoList, i.Addr = a := by
    intro ill h
    have hmem := getLocalAddrImpl_ret_mem gs pickNum port false ill a h
    rw [hr] at hmem
    obtain ⟨us, hus, hsel, i, hi, _, hia⟩ := mem_selectedAddrs _ _ _ _ _ _ hmem
    refine ⟨us, hus, selectedPort_eligible _ _ _ _ hsel, ?_, i, hi, hia⟩
    unfold selectedPort at hsel
    simp only [Bool.and_eq_true, Bool.or_eq_true, beq_iff_eq] at hsel
    rcases hsel.2 with h1 | h1
    · exact h1
    · exact absurd h1 hres
  rcases hret with h | h
  · exact key true h
  · exact key false h

theorem getLocalAddr_port_restricted_of_ifnames (gs : DeviceNetworkStatus) (pickNum : Int)
    (port : String) (a : IP)
    (hif : ∀ us ∈ gs.Ports, us.IfName ≠ "") (hport : port ≠ "")
    (hret : GetLocalAddrAny gs pickNum port = GoResult.ret a ∨
      GetLocalAddrAnyNoLinkLocal gs pickNum port = GoResult.ret a) :
    ∃ us ∈ gs.Ports, mgmtEligible gs.Version us = true ∧
      us.IfName = AdapterToIfName gs port ∧ ∃ i ∈ us.AddrInfoList, i.Addr = a :=
  getLocalAddr_port_restricted_of_resolved gs pickNum port a hport
    (adapterToIfName_ne_empty gs port hif hport) hret

/-! ## Address selection: the claims -/

/-- C1 (free-first ordering), the code evaluated where the claim fails: in the scenario
with the non-free port `eth1` listed before the free port `eth0`, the address list that
`getInterfaceAddr` builds for `freeOnly = false` is in status order, so
`GetLocalAddrAnyNoLinkLocal` returns the non-free port's address `10.0.1.5` for pick 0 and
the free port's address `10.0.0.5` for pick 1, the reverse of free-first. -/
theorem getLocalAddr_status_order_not_free_first :
    (getInterfaceAddr scenarioSwapped false "" false).1 = [[10, 0, 1, 5], [10, 0, 0, 5]] ∧
    GetLocalAddrAnyNoLinkLocal scenarioSwapped 0 "" = GoResult.ret [10, 0, 1, 5] ∧
    GetLocalAddrAnyNoLinkLocal scenarioSwapped 1 "" = GoResult.ret [10, 0, 0, 5] := by
  decide

/-- C2: whenever the address list `addrs` of `getInterfaceAddr` is non-empty and
`pickNum ≥ 0`, `getLocalAddrImpl` returns without error the element of `addrs` at index
`pickNum mod len(addrs)`; on the scenario of the specification pick 0 without port filter
returns `10.0.0.5`. -/
theorem getLocalAddrImpl_picks_modulo (gs : DeviceNetworkStatus) (pickNum : Int)
    (port : String) (freeOnly includeLinkLocal : Bool)
    (hne : (getInterfaceAddr gs freeOnly port includeLinkLocal).1 ≠ [])
    (hp : 0 ≤ pickNum) :
    (∃ a, (getInterfaceAddr gs freeOnly port includeLinkLocal).1[(pickNum %
        ((getInterfaceAddr gs freeOnly port includeLinkLocal).1.length : Int)).toNat]? = some a ∧
      getLocalAddrImpl gs pickNum port freeOnly includeLinkLocal = GoResult.ret a) ∧
    getLocalAddrImpl scenario 0 "" false false = GoResult.ret [10, 0, 0, 5] := by
  refine ⟨?_, by decide⟩
  rw [getInterfaceAddr_fst] at hne ⊢
  exact getLocalAddrImpl_of_nonneg gs pickNum port freeOnly includeLinkLocal hp hne

/-- Witness of C2 on the scenario of the specification, pick 3 of 2 addresses. -/
theorem getLocalAddrImpl_picks_modulo_witness :
    (∃ a, (getInterfaceAddr scenario false "" false).1[((3 : Int) %
        ((getInterfaceAddr scenario false "" false).1.length : Int)).toNat]? = some a ∧
      getLocalAddrImpl scenario 3 "" false false = GoResult.ret a) ∧
    getLocalAddrImpl scenario 0 "" false false = GoResult.ret [10, 0, 0, 5] :=
  getLocalAddrImpl_picks_modulo scenario 3 "" false false (by decide) (by decide)

/-- C3, the code evaluated where the claim fails: in `blankIfNameStatus` the non-empty port
name `x` is the logical name of a port whose interface name is empty and which has no
address, so no port is eligible in the sense of the claim; `AdapterToIfName` resolves `x`
to the empty string, the walker takes the empty string for "no port set" and drops the
restriction, and `getLocalAddrImpl` returns `10.0.1.5` of `eth1` where the claim has the
error. -/
theorem getLocalAddrImpl_blank_ifname_no_error :
    AdapterToIfName blankIfNameStatus "x" = "" ∧
    (∀ us ∈ blankIfNameStatus.Ports,
      claimedEligible blankIfNameStatus false "x" false us = false) ∧
    getLocalAddrImpl blankIfNameStatus 0 "x" false false = GoResult.ret [10, 0, 1, 5] ∧
    (getLocalAddrImpl blankIfNameStatus 0 "x" false false).isErr = false := by
  decide

/-- C4, the code evaluated where the claim fails: on the scenario of the specification
(two addresses) the pick index `-1` gives `-1 % 2 = -1` and the indexing `addrs[-1]`
faults, for `getLocalAddrImpl` and for the wrappers `GetLocalAddrAny` and
`GetLocalAddrAnyNoLinkLocal`. -/
theorem getLocalAddrImpl_negative_pick_faults :
    getLocalAddrImpl scenario (-1) "" false false = GoResult.fault ∧
    GetLocalAddrAny scenario (-1) "" = GoResult.fault ∧
    GetLocalAddrAnyNoLinkLocal scenario (-1) "" = GoResult.fault := by
  decide

/-! ## Rotation and the management-port lists: the claims -/

/-- C5 (rotation invariant), the code evaluated where the claim fails: for the two-element
sequence and `k = -1` the amount is `-1 % 2 = -1` and the slice `arr[-1:]` faults, so
`rotate(arr, k)` is not defined and the round trip cannot be made; for `k = -2` (a
multiple of the length) it is defined. -/
theorem rotate_negative_amount_faults :
    rotate ["eth0", "eth1"] (-1) = none ∧
    rotate ["eth0", "eth1", "eth2"] (-4) = none ∧
    rotate ["eth0", "eth1"] (-2) = some ["eth0", "eth1"] := by
  decide

/-- C6: for `rotation ≥ 0`, `getMgmtPortsImpl` returns the IfNames of the management-eligible
ports that pass the cost filter, in status order, rotated left: the result has the length
`n` of that sequence and its element `i` is element `(i + rotation) mod n` of it; the first
elements for the offsets `rotation, ..., rotation + n - 1` are a permutation of the
sequence; on the scenario of the specification rotation 1 gives `[eth1, eth0]`. -/
theorem getMgmtPortsImpl_rotates (gs : DeviceNetworkStatus) (rotation : Int)
    (freeOnly nonfreeOnly : Bool) (hr : 0 ≤ rotation) :
    (∃ res, getMgmtPortsImpl gs rotation freeOnly nonfreeOnly = some res ∧
      res.length = (eligibleIfNames gs freeOnly nonfreeOnly).length ∧
      ∀ i : Nat, i < (eligibleIfNames gs freeOnly nonfreeOnly).length →
        res[i]? = (eligibleIfNames gs freeOnly nonfreeOnly)[(((i : Int) + rotation) %
          ((eligibleIfNames gs freeOnly nonfreeOnly).length : Int)).toNat]?) ∧
    List.Perm
      ((List.range (eligibleIfNames gs freeOnly nonfreeOnly).length).filterMap
        (fun j : Nat => (getMgmtPortsImpl gs (rotation + (j : Int)) freeOnly nonfreeOnly).bind
          List.head?))
      (eligibleIfNames gs freeOnly nonfreeOnly) ∧
    getMgmtPortsImpl scenario 1 false false = some ["eth1", "eth0"] := by
  obtain ⟨r, rfl⟩ := Int.eq_ofNat_of_zero_le hr
  refine ⟨?_, ?_, by decide⟩
  · refine ⟨(eligibleIfNames gs freeOnly nonfreeOnly).rotate r, ?_, List.length_rotate _ _, ?_⟩
    · rw [getMgmtPortsImpl_eq, rotate_of_nonneg _ _ hr, Int.toNat_ofNat]
    · intro i hi
      rw [List.getElem?_rotate hi]
      have hc : (((i : Int) + (r : Int)) %
          ((eligibleIfNames gs freeOnly nonfreeOnly).length : Int)) =
          (((i + r) % (eligibleIfNames gs freeOnly nonfreeOnly).length : Nat) : Int) := by
        norm_cast
      rw [hc, Int.toNat_ofNat]
  · have hfm : (List.range (eligibleIfNames gs freeOnly nonfreeOnly).length).filterMap
        (fun j : Nat => (getMgmtPortsImpl gs ((r : Int) + (j : Int)) freeOnly nonfreeOnly).bind
          List.head?) =
        (List.range (eligibleIfNames gs freeOnly nonfreeOnly).length).filterMap
          (fun j => ((eligibleIfNames gs freeOnly nonfreeOnly).rotate r)[j]?) := by
      apply List.filterMap_congr
      intro j hj
      have hjlt : j < (eligibleIfNames gs freeOnly nonfreeOnly).length := List.mem_range.mp hj
      have hnn : (0 : Int) ≤ (r : Int) + (j : Int) := by omega
      have htn : ((r : Int) + (j : Int)).toNat = r + j := by omega
      rw [getMgmtPortsImpl_eq, rotate_of_nonneg _ _ hnn, htn, Option.some_bind,
        ← List.rotate_mod,
        List.head?_rotate (Nat.mod_lt _ (Nat.lt_of_le_of_lt (Nat.zero_le j) hjlt)),
        List.getElem?_rotate hjlt, Nat.add_comm r j]
    rw [hfm]
    have hlen : (eligibleIfNames gs freeOnly nonfreeOnly).length =
        ((eligibleIfNames gs freeOnly nonfreeOnly).rotate r).length :=
      (List.length_rotate _ _).symm
    rw [hlen, filterMap_getElem?_range]
    exact List.rotate_perm _ _

/-- Witness of C6 on the scenario of the specification, rotation 5. -/
theorem getMgmtPortsImpl_rotates_witness :
    (∃ res, getMgmtPortsImpl scenario 5 false false = some res ∧
      res.length = (eligibleIfNames scenario false false).length ∧
      ∀ i : Nat, i < (eligibleIfNames scenario false false).length →
        res[i]? = (eligibleIfNames scenario false false)[(((i : Int) + 5) %
          ((eligibleIfNames scenario false false).length : Int)).toNat]?) ∧
    List.Perm
      ((List.range (eligibleIfNames scenario false false).length).filterMap
        (fun j : Nat => (getMgmtPortsImpl scenario (5 + (j : Int)) false false).bind List.head?))
      (eligibleIfNames scenario false false) ∧
    getMgmtPortsImpl scenario 1 false false = some ["eth1", "eth0"] :=
  getMgmtPortsImpl_rotates scenario 5 false false (by decide)

/-- C7 (empty-input safety): when no port of the status passes the filters, and so for a
status with zero ports, `getMgmtPortsImpl` returns the empty sequence without fault for
every integer rotation, negative ones included, and every `freeOnly`/`nonfreeOnly`. -/
theorem getMgmtPortsImpl_empty (gs : DeviceNetworkStatus) (rotation : Int)
    (freeOnly nonfreeOnly : Bool)
    (hnone : ∀ us ∈ gs.Ports,
      (mgmtEligible gs.Version us && costOk freeOnly nonfreeOnly us) = false) :
    getMgmtPortsImpl gs rotation freeOnly nonfreeOnly = some [] ∧
    getMgmtPortsImpl { Version := gs.Version, Ports := [] } rotation freeOnly nonfreeOnly =
      some [] := by
  constructor
  · rw [getMgmtPortsImpl_eq]
    have hnil : eligibleIfNames gs freeOnly nonfreeOnly = [] := by
      unfold eligibleIfNames
      rw [List.map_eq_nil_iff, List.filter_eq_nil_iff]
      intro us hus
      simp [hnone us hus]
    rw [hnil]
    rfl
  · rfl

/-- Witness of C7: `mixedStatus` has no free management port; rotation `-5`. -/
theorem getMgmtPortsImpl_empty_witness :
    getMgmtPortsImpl mixedStatus (-5) true false = some [] ∧
    getMgmtPortsImpl { Version := mixedStatus.Version, Ports := [] } (-5) true false =
      some [] :=
  getMgmtPortsImpl_empty mixedStatus (-5) true false (by decide)

/-! ## Version gating and link-local exclusion: the claims -/

/-- C8 (version gating, old schema): for `Version < DPCIsMgmt`, `IsMgmtPort` equals `IsPort`,
`IsPort` is true exactly when some port has the name as Name or as IfName, and `IsMgmtPort`
is true for the Name and the IfName of every port, whatever its `IsMgmt` flag. -/
theorem isMgmtPort_old_schema (gs : DeviceNetworkStatus) (name : String)
    (hv : gs.Version < DPCIsMgmt) :
    IsMgmtPort gs name = IsPort gs name ∧
    (IsPort gs name = true ↔ ∃ us ∈ gs.Ports, us.Name = name ∨ us.IfName = name) ∧
    (∀ us ∈ gs.Ports, IsMgmtPort gs us.Name = true ∧ IsMgmtPort gs us.IfName = true) := by
  have helig : ∀ us : NetworkPortStatus, mgmtEligible gs.Version us = true := by
    intro us
    simp [mgmtEligible, hv]
  have hiff : ∀ n : String, IsMgmtPort gs n = true ↔ IsPort gs n = true := by
    intro n
    unfold IsMgmtPort IsPort
    rw [isMgmtPort_loop_iff, isPort_loop_iff]
    simp [helig]
  refine ⟨?_, isPort_loop_iff name gs.Ports, ?_⟩
  · cases h1 : IsMgmtPort gs name <;> cases h2 : IsPort gs name <;> simp_all
  · intro us hus
    constructor
    · exact (hiff _).mpr ((isPort_loop_iff _ _).mpr ⟨us, hus, Or.inl rfl⟩)
    · exact (hiff _).mpr ((isPort_loop_iff _ _).mpr ⟨us, hus, Or.inr rfl⟩)

/-- Witness of C8: under the old schema the non-management port named `lan` of
`mixedStatusOld` is a management port. -/
theorem isMgmtPort_old_schema_witness :
    IsMgmtPort mixedStatusOld "lan" = IsPort mixedStatusOld "lan" ∧
    (IsPort mixedStatusOld "lan" = true ↔
      ∃ us ∈ mixedStatusOld.Ports, us.Name = "lan" ∨ us.IfName = "lan") ∧
    (∀ us ∈ mixedStatusOld.Ports,
      IsMgmtPort mixedStatusOld us.Name = true ∧ IsMgmtPort mixedStatusOld us.IfName = true) :=
  isMgmtPort_old_schema mixedStatusOld "lan" (by decide)

/-- C9 as stated fails: `crossNamedStatus` has `Version ≥ DPCIsMgmt` and satisfies the
uniqueness invariant, its first port `eth0` has `IsMgmt = false`, yet
`IsMgmtPort(status, eth0)` is true, through the management port whose logical name is
`eth0`. -/
theorem isMgmtPort_new_schema_claimed_fails :
    crossNamedStatus.Version ≥ DPCIsMgmt ∧ uniqueNames crossNamedStatus ∧
    ∃ p ∈ crossNamedStatus.Ports,
      ¬ (IsMgmtPort crossNamedStatus p.IfName = true ↔ p.IsMgmt = true) := by
  unfold uniqueNames
  decide

/-- C9 amended (version gating, new schema): for `Version ≥ DPCIsMgmt`, under the uniqueness
invariant and when in addition no port's logical name is another port's interface name,
for every port `p` of the status `IsMgmtPort(status, p.IfName)` is true exactly when
`p.IsMgmt` is, and likewise for `p.Name` when it is non-empty. -/
theorem isMgmtPort_new_schema (gs : DeviceNetworkStatus) (p : NetworkPortStatus)
    (hv : gs.Version ≥ DPCIsMgmt) (huniq : uniqueNames gs) (hcross : noCrossNames gs)
    (hp : p ∈ gs.Ports) :
    (IsMgmtPort gs p.IfName = true ↔ p.IsMgmt = true) ∧
    (p.Name ≠ "" → (IsMgmtPort gs p.Name = true ↔ p.IsMgmt = true)) := by
  have helig : ∀ us : NetworkPortStatus, mgmtEligible gs.Version us = us.IsMgmt := by
    intro us
    have : ¬ gs.Version < DPCIsMgmt := Nat.not_lt.mpr hv
    simp [mgmtEligible, this]
  constructor
  · unfold IsMgmtPort
    rw [isMgmtPort_loop_iff]
    constructor
    · rintro ⟨us, hus, hmatch, hm⟩
      rw [helig] at hm
      have hEq : us = p := by
        rcases hmatch with h | h
        · exact hcross p hp us hus h
        · exact List.inj_on_of_nodup_map huniq.1 hus hp h
      rw [← hEq]
      exact hm
    · intro hm
      exact ⟨p, hp, Or.inr rfl, by rw [helig]; exact hm⟩
  · intro hname
    unfold IsMgmtPort
    rw [isMgmtPort_loop_iff]
    constructor
    · rintro ⟨us, hus, hmatch, hm⟩
      rw [helig] at hm
      have hEq : us = p := by
        rcases hmatch with h | h
        · have hne : us.Name ≠ "" := by rw [h]; exact hname
          have hus2 : us ∈ gs.Ports.filter (fun us => us.Name != "") :=
            List.mem_filter.mpr ⟨hus, by simpa using hne⟩
          have hp2 : p ∈ gs.Ports.filter (fun us => us.Name != "") :=
            List.mem_filter.mpr ⟨hp, by simpa using hname⟩
          exact List.inj_on_of_nodup_map huniq.2 hus2 hp2 h
        · exact (hcross us hus p hp h.symm).symm
      rw [← hEq]
      exact hm
    · intro hm
      exact ⟨p, hp, Or.inl rfl, by rw [helig]; exact hm⟩

/-- Witness of C9 amended on `mixedStatus`, at its management port `eth1` named `wan`. -/
theorem isMgmtPort_new_schema_witness :
    (IsMgmtPort mixedStatus "eth1" = true ↔ true = true) ∧
    ("wan" ≠ "" → (IsMgmtPort mixedStatus "wan" = true ↔ true = true)) :=
  isMgmtPort_new_schema mixedStatus (mkPort "eth1" "wan" true false [[169, 254, 7, 7]])
    (by decide) (by unfold uniqueNames; decide) (by unfold noCrossNames; decide) (by decide)

/-- C10 (link-local exclusion): when the only management-eligible port of the status holds
exactly one address `L` and `L` is link-local unicast, then for every pick index `≥ 0` and
no port filter `GetLocalAddrAnyNoLinkLocal` returns the error of `getInterfaceAddr` and
`GetLocalAddrAny` returns `L`. -/
theorem getLocalAddr_link_local_only (gs : DeviceNetworkStatus) (p : NetworkPortStatus)
    (L : AddrInfo) (pickNum : Int)
    (honly : gs.Ports.filter (mgmtEligible gs.Version) = [p])
    (haddr : p.AddrInfoList = [L])
    (hll : L.Addr.IsLinkLocalUnicast = true)
    (hpick : 0 ≤ pickNum) :
    GetLocalAddrAnyNoLinkLocal gs pickNum "" = GoResult.err "No good IP address" ∧
    GetLocalAddrAny gs pickNum "" = GoResult.ret L.Addr := by
  have hres : resolvedIfName gs "" = "" := by simp [resolvedIfName]
  have hno : selectedAddrs gs.Version false (resolvedIfName gs "") false gs.Ports = [] := by
    rw [hres]
    unfold selectedAddrs
    rw [selectedPort_no_filter, honly]
    simp [qualifyingAddrs, haddr, qualifies, hll]
  have hyes : selectedAddrs gs.Version false (resolvedIfName gs "") true gs.Ports =
      [L.Addr] := by
    rw [hres]
    unfold selectedAddrs
    rw [selectedPort_no_filter, honly]
    simp [qualifyingAddrs, haddr, qualifies]
  constructor
  · exact getLocalAddrImpl_of_nil gs pickNum "" false false hno
  · unfold GetLocalAddrAny
    obtain ⟨a, ha, hret⟩ := getLocalAddrImpl_of_nonneg gs pickNum "" false true hpick
      (by rw [hyes]; simp)
    rw [hret]
    rw [hyes] at ha
    simp at ha
    rw [ha]

/-- Witness of C10 on `mixedStatus`, whose only management port `eth1` holds the link-local
address `169.254.7.7`; pick 3. -/
theorem getLocalAddr_link_local_only_witness :
    GetLocalAddrAnyNoLinkLocal mixedStatus 3 "" = GoResult.err "No good IP address" ∧
    GetLocalAddrAny mixedStatus 3 "" = GoResult.ret [169, 254, 7, 7] :=
  getLocalAddr_link_local_only mixedStatus
    (mkPort "eth1" "wan" true false [[169, 254, 7, 7]])
    { Addr := [169, 254, 7, 7], Geo := "", LastGeoTimestamp := 0 } 3
    (by decide) (by decide) (by decide) (by decide)

/-! ## Name resolution and lookups: the claims -/

/-- C11: `AdapterToIfName(status, name)` is the IfName of the first port in status order
whose logical Name is `name` when there is one, whatever the interface names of the ports
before it, and is `name` itself when no port has that logical Name; hence whenever
`IsPort(status, name)` holds the result is the IfName of a port of the status. -/
theorem adapterToIfName_resolves (gs : DeviceNetworkStatus) (name : String) :
    (∀ p, gs.Ports.find? (fun q => q.Name == name) = some p →
      AdapterToIfName gs name = p.IfName) ∧
    (gs.Ports.find? (fun q => q.Name == name) = none → AdapterToIfName gs name = name) ∧
    (IsPort gs name = true → ∃ p ∈ gs.Ports, AdapterToIfName gs name = p.IfName) := by
  refine ⟨fun p h => adapterToIfName_of_name gs name p h,
    fun h => adapterToIfName_of_no_name gs name h, ?_⟩
  intro hport
  cases hf : gs.Ports.find? (fun q => q.Name == name) with
  | some p =>
    exact ⟨p, List.mem_of_find?_eq_some hf, adapterToIfName_of_name gs name p hf⟩
  | none =>
    obtain ⟨us, hus, hm⟩ := (isPort_loop_iff name gs.Ports).mp hport
    have hnone := List.find?_eq_none.mp hf us hus
    rcases hm with h | h
    · exact absurd (by simpa using h) hnone
    · exact ⟨us, hus, by rw [adapterToIfName_of_no_name gs name hf, h]⟩

/-- Witness of C11 on `crossNamedStatus`: `eth0` is the interface name of the first port and
the logical name of the second, and resolves to the second port's interface name `eth1`. -/
theorem adapterToIfName_resolves_witness :
    AdapterToIfName crossNamedStatus "eth0" = "eth1" :=
  (adapterToIfName_resolves crossNamedStatus "eth0").1
    (mkPort "eth1" "eth0" true false []) (by decide)

/-- C12 as stated fails: in `shadowedStatus` the first port whose Name or IfName is `eth0`
is the non-management port `eth0`, so the claimed predicate is false, yet
`IsFreeMgmtPort(status, eth0)` is true: the loop skips that port and answers with the
later free management port whose logical name is `eth0`. -/
theorem isFreeMgmtPort_first_match_claimed_fails :
    firstMatchFreeMgmt shadowedStatus "eth0" = false ∧
    IsFreeMgmtPort shadowedStatus "eth0" = true ∧
    uniqueNames shadowedStatus := by
  unfold uniqueNames
  decide

/-- C12 amended: `IsFreeMgmtPort(status, name)` is the `Free` flag of the first port in
status order that both matches `name` (by Name or IfName) and is management-eligible, and
is false when there is no such port; matching ports that are not management-eligible are
skipped and ports after that first one do not count. -/
theorem isFreeMgmtPort_first_eligible_match (gs : DeviceNetworkStatus) (name : String) :
    IsFreeMgmtPort gs name =
      match gs.Ports.find? (fun us => nameMatches name us && mgmtEligible gs.Version us) with
      | some us => us.Free
      | none => false := by
  unfold IsFreeMgmtPort
  exact isFreeMgmtPort_loop_eq gs.Version name gs.Ports

/-- C13: `GetMgmtPort(status, name)` is the first port in status order that matches `name` by
Name or IfName and is management-eligible, absent (`nil`) when there is none, and it
returns a record exactly when `IsMgmtPort(status, name)` is true. -/
theorem getMgmtPort_first_eligible_match (gs : DeviceNetworkStatus) (name : String) :
    GetMgmtPort gs name =
      gs.Ports.find? (fun us => nameMatches name us && mgmtEligible gs.Version us) ∧
    ((GetMgmtPort gs name).isSome = true ↔ IsMgmtPort gs name = true) ∧
    (IsMgmtPort gs name = false → GetMgmtPort gs name = none) := by
  have h1 : GetMgmtPort gs name =
      gs.Ports.find? (fun us => nameMatches name us && mgmtEligible gs.Version us) :=
    getMgmtPort_loop_eq gs.Version name gs.Ports
  have h2 : IsMgmtPort gs name = (GetMgmtPort gs name).isSome := by
    rw [h1]
    exact isMgmtPort_loop_eq gs.Version name gs.Ports
  refine ⟨h1, by rw [h2], ?_⟩
  intro h
  rw [h2] at h
  cases hg : GetMgmtPort gs name with
  | none => rfl
  | some x => rw [hg] at h; exact Bool.noConfusion h

/-- Witness of C13: `nope` names no port of the scenario, and the lookup finds nothing. -/
theorem getMgmtPort_first_eligible_match_witness :
    GetMgmtPort scenario "nope" = none :=
  (getMgmtPort_first_eligible_match scenario "nope").2.2 (by decide)

/-- C14: `GetMgmtPortFromAddr(status, addr)` is the IfName of the first port in status order
that is management-eligible and holds an address `Equal` to `addr`, and the empty string
when no management-eligible port holds it; in particular, under `Version ≥ DPCIsMgmt`, when
`addr` is held only by ports with `IsMgmt = false`. -/
theorem getMgmtPortFromAddr_first_eligible_holder (gs : DeviceNetworkStatus) (addr : IP) :
    (GetMgmtPortFromAddr gs addr =
      match gs.Ports.find? (fun us => mgmtEligible gs.Version us && holdsAddr addr us) with
      | some us => us.IfName
      | none => "") ∧
    ((∀ us ∈ gs.Ports, mgmtEligible gs.Version us = true → holdsAddr addr us = false) →
      GetMgmtPortFromAddr gs addr = "") ∧
    (gs.Version ≥ DPCIsMgmt →
      (∀ us ∈ gs.Ports, holdsAddr addr us = true → us.IsMgmt = false) →
      GetMgmtPortFromAddr gs addr = "") := by
  have h1 : GetMgmtPortFromAddr gs addr =
      match gs.Ports.find? (fun us => mgmtEligible gs.Version us && holdsAddr addr us) with
      | some us => us.IfName
      | none => "" := getMgmtPortFromAddr_loop_eq gs.Version addr gs.Ports
  have h2 : (∀ us ∈ gs.Ports, mgmtEligible gs.Version us = true → holdsAddr addr us = false) →
      GetMgmtPortFromAddr gs addr = "" := by
    intro hno
    have hf : gs.Ports.find? (fun us => mgmtEligible gs.Version us && holdsAddr addr us) =
        none := by
      rw [List.find?_eq_none]
      intro us hus
      cases hE : mgmtEligible gs.Version us
      · simp
      · simp [hno us hus hE]
    rw [h1, hf]
  refine ⟨h1, h2, ?_⟩
  intro hv honly
  apply h2
  intro us hus hE
  cases hH : holdsAddr addr us
  · rfl
  · have hm := honly us hus hH
    have hnv : ¬ gs.Version < DPCIsMgmt := Nat.not_lt.mpr hv
    simp [mgmtEligible, hm, hnv] at hE

/-- Witness of C14 on `mixedStatus`: `10.0.0.5` is held only by the non-management port
`eth0` and is resolved to no port. -/
theorem getMgmtPortFromAddr_first_eligible_holder_witness :
    GetMgmtPortFromAddr mixedStatus [10, 0, 0, 5] = "" :=
  (getMgmtPortFromAddr_first_eligible_holder mixedStatus [10, 0, 0, 5]).2.2
    (by decide) (by decide)

/-! ## The list conveniences and the old schema: the claims -/

/-- C15: with rotation 0, `GetMgmtPortsFree` is the IfNames of the management-eligible ports
with `Free` set, `GetMgmtPortsNonFree` those with `Free` unset and `GetMgmtPortsAny` those of
all management-eligible ports, each in status order; the first two are the two halves of
the split of the third by the `Free` flag, sublists of it whose lengths add up to its
length; each wrapper is `getMgmtPortsImpl` with its fixed flag pair at every rotation. -/
theorem getMgmtPorts_partition (gs : DeviceNetworkStatus) :
    GetMgmtPortsFree gs 0 =
      some (((eligiblePorts gs).filter (fun us => us.Free)).map (fun us => us.IfName)) ∧
    GetMgmtPortsNonFree gs 0 =
      some (((eligiblePorts gs).filter (fun us => !us.Free)).map (fun us => us.IfName)) ∧
    GetMgmtPortsAny gs 0 = some ((eligiblePorts gs).map (fun us => us.IfName)) ∧
    (((eligiblePorts gs).filter (fun us => us.Free)).map (fun us => us.IfName)).length +
      (((eligiblePorts gs).filter (fun us => !us.Free)).map (fun us => us.IfName)).length =
      ((eligiblePorts gs).map (fun us => us.IfName)).length ∧
    List.Sublist (((eligiblePorts gs).filter (fun us => us.Free)).map (fun us => us.IfName))
      ((eligiblePorts gs).map (fun us => us.IfName)) ∧
    List.Sublist (((eligiblePorts gs).filter (fun us => !us.Free)).map (fun us => us.IfName))
      ((eligiblePorts gs).map (fun us => us.IfName)) ∧
    (∀ rotation : Int,
      GetMgmtPortsFree gs rotation = getMgmtPortsImpl gs rotation true false ∧
      GetMgmtPortsNonFree gs rotation = getMgmtPortsImpl gs rotation false true ∧
      GetMgmtPortsAny gs rotation = getMgmtPortsImpl gs rotation false false) := by
  have hrot : ∀ l : List String, rotate l 0 = some l := by
    intro l
    rw [rotate_of_nonneg l 0 (le_refl 0)]
    simp
  refine ⟨?_, ?_, ?_, ?_, ?_, ?_, fun _ => ⟨rfl, rfl, rfl⟩⟩
  · unfold GetMgmtPortsFree
    rw [getMgmtPortsImpl_eq, hrot]
    unfold eligibleIfNames eligiblePorts
    rw [List.filter_filter]
    congr 2
    apply List.filter_congr
    intro us _
    cases hE : mgmtEligible gs.Version us <;> cases hF : us.Free <;> simp [costOk, hE, hF]
  · unfold GetMgmtPortsNonFree
    rw [getMgmtPortsImpl_eq, hrot]
    unfold eligibleIfNames eligiblePorts
    rw [List.filter_filter]
    congr 2
    apply List.filter_congr
    intro us _
    cases hE : mgmtEligible gs.Version us <;> cases hF : us.Free <;> simp [costOk, hE, hF]
  · unfold GetMgmtPortsAny
    rw [getMgmtPortsImpl_eq, hrot]
    unfold eligibleIfNames eligiblePorts
    congr 2
    apply List.filter_congr
    intro us _
    cases hE : mgmtEligible gs.Version us <;> simp [costOk, hE]
  · simp only [List.length_map]
    generalize eligiblePorts gs = l
    induction l with
    | nil => rfl
    | cons us rest ih =>
      cases hF : us.Free <;> simp [List.filter_cons, hF] <;> omega
  · exact List.Sublist.map _ (List.filter_sublist _)
  · exact List.Sublist.map _ (List.filter_sublist _)

/-- C16: for two statuses of `Version < DPCIsMgmt` that differ only in the `IsMgmt` flags of
their ports, `getMgmtPortsImpl`, `getLocalAddrImpl`, `GetMgmtPortFromAddr`, `IsMgmtPort` and
`IsFreeMgmtPort` return the same result on both, for all other arguments equal. -/
theorem isMgmt_ignored_old_schema (s1 s2 : DeviceNetworkStatus)
    (hv : s1.Version < DPCIsMgmt) (hsame : sameUpToIsMgmt s1 s2) :
    (∀ (rotation : Int) (freeOnly nonfreeOnly : Bool),
      getMgmtPortsImpl s1 rotation freeOnly nonfreeOnly =
        getMgmtPortsImpl s2 rotation freeOnly nonfreeOnly) ∧
    (∀ (pickNum : Int) (port : String) (freeOnly includeLinkLocal : Bool),
      getLocalAddrImpl s1 pickNum port freeOnly includeLinkLocal =
        getLocalAddrImpl s2 pickNum port freeOnly includeLinkLocal) ∧
    (∀ addr : IP, GetMgmtPortFromAddr s1 addr = GetMgmtPortFromAddr s2 addr) ∧
    (∀ name : String, IsMgmtPort s1 name = IsMgmtPort s2 name) ∧
    (∀ name : String, IsFreeMgmtPort s1 name = IsFreeMgmtPort s2 name) := by
  obtain ⟨hver, hports⟩ := hsame
  have hv2 : s2.Version < DPCIsMgmt := hver ▸ hv
  refine ⟨?_, ?_, ?_, ?_, ?_⟩
  · intro rotation freeOnly nonfreeOnly
    unfold getMgmtPortsImpl
    rw [← getMgmtPortsImpl_loop_clear s1.Version hv, hports, hver,
      getMgmtPortsImpl_loop_clear s2.Version hv2]
  · intro pickNum port freeOnly includeLinkLocal
    have hg : getInterfaceAddr s1 freeOnly port includeLinkLocal =
        getInterfaceAddr s2 freeOnly port includeLinkLocal := by
      rw [← getInterfaceAddr_clear s1 hv, hports, hver, getInterfaceAddr_clear s2 hv2]
    unfold getLocalAddrImpl
    rw [hg]
  · intro addr
    unfold GetMgmtPortFromAddr
    rw [← getMgmtPortFromAddr_loop_clear s1.Version hv, hports, hver,
      getMgmtPortFromAddr_loop_clear s2.Version hv2]
  · intro name
    unfold IsMgmtPort
    rw [← isMgmtPort_loop_clear s1.Version hv, hports, hver,
      isMgmtPort_loop_clear s2.Version hv2]
  · intro name
    unfold IsFreeMgmtPort
    rw [← isFreeMgmtPort_loop_clear s1.Version hv, hports, hver,
      isFreeMgmtPort_loop_clear s2.Version hv2]

/-- Witness of C16 on `mixedStatusOld` and the same status with both `IsMgmt` flags
flipped. -/
theorem isMgmt_ignored_old_schema_witness :
    (∀ (rotation : Int) (freeOnly nonfreeOnly : Bool),
      getMgmtPortsImpl mixedStatusOld rotation freeOnly nonfreeOnly =
        getMgmtPortsImpl mixedStatusOldFlipped rotation freeOnly nonfreeOnly) ∧
    (∀ (pickNum : Int) (port : String) (freeOnly includeLinkLocal : Bool),
      getLocalAddrImpl mixedStatusOld pickNum port freeOnly includeLinkLocal =
        getLocalAddrImpl mixedStatusOldFlipped pickNum port freeOnly includeLinkLocal) ∧
    (∀ addr : IP,
      GetMgmtPortFromAddr mixedStatusOld addr = GetMgmtPortFromAddr mixedStatusOldFlipped addr) ∧
    (∀ name : String, IsMgmtPort mixedStatusOld name = IsMgmtPort mixedStatusOldFlipped name) ∧
    (∀ name : String,
      IsFreeMgmtPort mixedStatusOld name = IsFreeMgmtPort mixedStatusOldFlipped name) :=
  isMgmt_ignored_old_schema mixedStatusOld mixedStatusOldFlipped (by decide)
    (by unfold sameUpToIsMgmt; decide)

/-! ## Port-restricted selection, counts and free ports: the claims -/

/-- C17, the code evaluated where the claim fails: in `blankIfNameStatus` the non-empty
port name `x` resolves to the empty interface name, the walker takes it for "no port set",
and both `GetLocalAddrAny` and `GetLocalAddrAnyNoLinkLocal` return `10.0.1.5`, an address of
`eth1`, which no management-eligible port of IfName `AdapterToIfName(status, x)` holds. -/
theorem getLocalAddr_blank_ifname_other_port :
    GetLocalAddrAny blankIfNameStatus 0 "x" = GoResult.ret [10, 0, 1, 5] ∧
    GetLocalAddrAnyNoLinkLocal blankIfNameStatus 0 "x" = GoResult.ret [10, 0, 1, 5] ∧
    ∀ us ∈ blankIfNameStatus.Ports,
      ¬ (mgmtEligible blankIfNameStatus.Version us = true ∧
        us.IfName = AdapterToIfName blankIfNameStatus "x" ∧
        ∃ i ∈ us.AddrInfoList, i.Addr = [10, 0, 1, 5]) := by
  decide

/-- C18, the code evaluated where the claim fails: in the scenario `eth1` is a management
port that is not Free and holds the non-link-local address `10.0.1.5`
(`GetLocalAddrAnyNoLinkLocal` with port `eth1` returns it), yet
`GetLocalAddrFreeNoLinkLocal` with port `eth1` returns the error: the `Free` test is applied
also when a port is set. -/
theorem getLocalAddrFree_port_set_nonfree_errors :
    IsMgmtPort scenario "eth1" = true ∧
    IsFreeMgmtPort scenario "eth1" = false ∧
    GetLocalAddrAnyNoLinkLocal scenario 0 "eth1" = GoResult.ret [10, 0, 1, 5] ∧
    GetLocalAddrFreeNoLinkLocal scenario 0 "eth1" = GoResult.err "No good IP address" := by
  decide

/-- C19: `CountLocalAddrAnyNoLinkLocal` is the total number of non-link-local addresses over
the management-eligible ports, `CountLocalAddrFreeNoLinkLocal` the same total over the Free
ones, and the results of `GetLocalAddrAnyNoLinkLocal(status, i, "")` for `i` from 0 to
count - 1 are, position by position, those addresses in status order, each returned
without error. -/
theorem countLocalAddr_counts (gs : DeviceNetworkStatus) :
    CountLocalAddrAnyNoLinkLocal gs =
      ((eligiblePorts gs).map (fun us => (nonLinkLocalAddrs us).length)).sum ∧
    CountLocalAddrFreeNoLinkLocal gs =
      (((eligiblePorts gs).filter (fun us => us.Free)).map
        (fun us => (nonLinkLocalAddrs us).length)).sum ∧
    (List.range (CountLocalAddrAnyNoLinkLocal gs)).map
        (fun i : Nat => GetLocalAddrAnyNoLinkLocal gs (i : Int) "") =
      ((eligiblePorts gs).flatMap
        (fun us => (nonLinkLocalAddrs us).map (fun i => i.Addr))).map GoResult.ret := by
  have hres : resolvedIfName gs "" = "" := by simp [resolvedIfName]
  have hq : qualifyingAddrs false = fun us => (nonLinkLocalAddrs us).map (fun i => i.Addr) := by
    funext us
    have hqf : qualifies false = fun a : AddrInfo => !a.Addr.IsLinkLocalUnicast := by
      funext a
      simp [qualifies]
    simp only [qualifyingAddrs, nonLinkLocalAddrs, hqf]
  have hany : selectedAddrs gs.Version false "" false gs.Ports =
      (eligiblePorts gs).flatMap (fun us => (nonLinkLocalAddrs us).map (fun i => i.Addr)) := by
    unfold selectedAddrs eligiblePorts
    rw [selectedPort_no_filter, hq]
  have hfree : selectedAddrs gs.Version true "" false gs.Ports =
      ((eligiblePorts gs).filter (fun us => us.Free)).flatMap
        (fun us => (nonLinkLocalAddrs us).map (fun i => i.Addr)) := by
    unfold selectedAddrs eligiblePorts
    rw [hq, List.filter_filter]
    congr 1
    apply List.filter_congr
    intro us _
    unfold selectedPort
    cases hE : mgmtEligible gs.Version us <;> cases hF : us.Free <;> simp
  have hcA : CountLocalAddrAnyNoLinkLocal gs =
      ((eligiblePorts gs).flatMap
        (fun us => (nonLinkLocalAddrs us).map (fun i => i.Addr))).length := by
    unfold CountLocalAddrAnyNoLinkLocal
    rw [getInterfaceAddr_fst, hres, hany]
  refine ⟨?_, ?_, ?_⟩
  · rw [hcA, List.length_flatMap]
    congr 1
    apply List.map_congr_left
    intro us _
    simp
  · unfold CountLocalAddrFreeNoLinkLocal
    rw [getInterfaceAddr_fst, hres, hfree, List.length_flatMap]
    congr 1
    apply List.map_congr_left
    intro us _
    simp
  · rw [hcA]
    apply List.ext_getElem?
    intro n
    rw [List.getElem?_map, List.getElem?_map]
    by_cases hn : n < ((eligiblePorts gs).flatMap
        (fun us => (nonLinkLocalAddrs us).map (fun i => i.Addr))).length
    · rw [List.getElem?_range hn, List.getElem?_eq_getElem hn]
      simp only [Option.map_some']
      congr 1
      have hne : selectedAddrs gs.Version false (resolvedIfName gs "") false gs.Ports ≠ [] := by
        rw [hres, hany]
        exact List.ne_nil_of_length_pos (Nat.lt_of_le_of_lt (Nat.zero_le n) hn)
      obtain ⟨a, ha, hret⟩ := getLocalAddrImpl_of_nonneg gs (n : Int) "" false false
        (Int.ofNat_nonneg n) hne
      unfold GetLocalAddrAnyNoLinkLocal
      rw [hret]
      rw [hres, hany] at ha
      have hidx : ((n : Int) % ((((eligiblePorts gs).flatMap
          (fun us => (nonLinkLocalAddrs us).map (fun i => i.Addr))).length : Nat) : Int)).toNat
          = n := by
        have hc : ((n : Int) % ((((eligiblePorts gs).flatMap
            (fun us => (nonLinkLocalAddrs us).map (fun i => i.Addr))).length : Nat) : Int)) =
            ((n % ((eligiblePorts gs).flatMap
              (fun us => (nonLinkLocalAddrs us).map (fun i => i.Addr))).length : Nat) : Int) := by
          norm_cast
        rw [hc, Int.toNat_ofNat, Nat.mod_eq_of_lt hn]
      rw [hidx, List.getElem?_eq_getElem hn] at ha
      injection ha with ha
      rw [ha]
    · have hn2 := Nat.le_of_not_lt hn
      rw [List.getElem?_eq_none (by simpa using hn2), List.getElem?_eq_none hn2]
      rfl

/-- C20: `GetMgmtPortsFreeNoLinkLocal` returns, in status order, one record for each port
that is management-eligible, Free and holds at least one non-link-local address; the record
has that port's IfName and Name and, as `AddrInfoList`, the port's addresses without the
link-local unicast ones, which is never empty; the result is empty when there is no such
port. -/
theorem getMgmtPortsFreeNoLinkLocal_records (gs : DeviceNetworkStatus) :
    List.Forall₂
      (fun us r => r.IfName = us.IfName ∧ r.Name = us.Name ∧
        r.AddrInfoList = nonLinkLocalAddrs us ∧ r.AddrInfoList ≠ [])
      (gs.Ports.filter (fun us => mgmtEligible gs.Version us && us.Free &&
        us.AddrInfoList.any (fun a => !a.Addr.IsLinkLocalUnicast)))
      (GetMgmtPortsFreeNoLinkLocal gs) ∧
    ((∀ us ∈ gs.Ports, (mgmtEligible gs.Version us && us.Free &&
        us.AddrInfoList.any (fun a => !a.Addr.IsLinkLocalUnicast)) = false) →
      GetMgmtPortsFreeNoLinkLocal gs = []) := by
  rw [getMgmtPortsFreeNoLinkLocal_eq]
  constructor
  · rw [List.forall₂_map_right_iff, List.forall₂_same]
    intro us hus
    obtain ⟨_, hp⟩ := List.mem_filter.mp hus
    simp only [Bool.and_eq_true] at hp
    refine ⟨rfl, rfl, rfl, ?_⟩
    obtain ⟨i, hi, hq⟩ := List.any_eq_true.mp hp.2
    intro hnil
    have hmem : i ∈ nonLinkLocalAddrs us := List.mem_filter.mpr ⟨hi, hq⟩
    have hrec : (linkRecord us).AddrInfoList = nonLinkLocalAddrs us := rfl
    rw [hrec] at hnil
    rw [hnil] at hmem
    exact List.not_mem_nil _ hmem
  · intro hnone
    have : gs.Ports.filter (fun us => mgmtEligible gs.Version us && us.Free &&
        us.AddrInfoList.any (fun a => !a.Addr.IsLinkLocalUnicast)) = [] := by
      rw [List.filter_eq_nil_iff]
      intro us hus
      rw [hnone us hus]
      exact Bool.false_ne_true
    rw [this]
    rfl

/-- Witness of C20 on `mixedStatus`, whose only free port is not a management port: the
result is empty. -/
theorem getMgmtPortsFreeNoLinkLocal_records_witness :
    GetMgmtPortsFreeNoLinkLocal mixedStatus = [] :=
  (getMgmtPortsFreeNoLinkLocal_records mixedStatus).2 (by decide)

/-! ## Reported ports, the classifier chain and the agreement of the walkers: the claims -/

/-- C21: `ReportPorts(status)` is `dbo1x0` followed by the logical Names of all the ports in
status order: its length is the number of ports plus one, its first element is `dbo1x0`
and its element `i + 1` is the Name of port `i`. -/
theorem reportPorts_lists_names (gs : DeviceNetworkStatus) :
    ReportPorts gs = "dbo1x0" :: gs.Ports.map (fun port => port.Name) ∧
    (ReportPorts gs).length = gs.Ports.length + 1 ∧
    (ReportPorts gs)[0]? = some "dbo1x0" ∧
    (∀ i : Nat, (ReportPorts gs)[i + 1]? = (gs.Ports[i]?).map (fun port => port.Name)) := by
  rw [reportPorts_eq]
  refine ⟨rfl, by simp, by simp, ?_⟩
  intro i
  rw [List.getElem?_cons_succ, List.getElem?_map]

/-- C22: `IsFreeMgmtPort` implies `IsMgmtPort`, `IsMgmtPort` implies `IsPort`, and all three
are false for a name that is neither the Name nor the IfName of any port. -/
theorem classifier_chain (gs : DeviceNetworkStatus) (name : String) :
    (IsFreeMgmtPort gs name = true → IsMgmtPort gs name = true) ∧
    (IsMgmtPort gs name = true → IsPort gs name = true) ∧
    ((∀ us ∈ gs.Ports, us.Name ≠ name ∧ us.IfName ≠ name) →
      IsPort gs name = false ∧ IsMgmtPort gs name = false ∧
        IsFreeMgmtPort gs name = false) := by
  have h1 : IsFreeMgmtPort gs name = true → IsMgmtPort gs name = true := by
    intro h
    unfold IsFreeMgmtPort at h
    unfold IsMgmtPort
    rw [isFreeMgmtPort_loop_eq] at h
    rw [isMgmtPort_loop_eq]
    cases hf : gs.Ports.find? (fun us => nameMatches name us && mgmtEligible gs.Version us) with
    | none => rw [hf] at h; exact Bool.noConfusion h
    | some us => rfl
  have h2 : IsMgmtPort gs name = true → IsPort gs name = true := by
    intro h
    obtain ⟨us, hus, hm, _⟩ := (isMgmtPort_loop_iff gs.Version name gs.Ports).mp h
    exact (isPort_loop_iff name gs.Ports).mpr ⟨us, hus, hm⟩
  refine ⟨h1, h2, ?_⟩
  intro hno
  have hp : IsPort gs name = false := by
    rw [Bool.eq_false_iff]
    intro h
    obtain ⟨us, hus, hm⟩ := (isPort_loop_iff name gs.Ports).mp h
    rcases hm with hm | hm
    · exact (hno us hus).1 hm
    · exact (hno us hus).2 hm
  have hm : IsMgmtPort gs name = false := by
    rw [Bool.eq_false_iff]
    intro h
    rw [h2 h] at hp
    exact Bool.noConfusion hp
  refine ⟨hp, hm, ?_⟩
  rw [Bool.eq_false_iff]
  intro h
  rw [h1 h] at hm
  exact Bool.noConfusion hm

/-- Witness of C22: in `shadowedStatus` the name `eth0` is a free management port, hence a
management port and a port; in the scenario the name `zz` names no port and all three
predicates are false. -/
theorem classifier_chain_witness :
    IsMgmtPort shadowedStatus "eth0" = true ∧ IsPort shadowedStatus "eth0" = true ∧
    (IsPort scenario "zz" = false ∧ IsMgmtPort scenario "zz" = false ∧
      IsFreeMgmtPort scenario "zz" = false) :=
  ⟨(classifier_chain shadowedStatus "eth0").1 (by decide),
    (classifier_chain shadowedStatus "eth0").2.1 (by decide),
    (classifier_chain scenario "zz").2.2 (by decide)⟩

/-- C23: when `getLocalAddrImpl` succeeds with the address `a` (`pickNum ≥ 0`), `a` is in the
`AddrInfoList` of some management-eligible port, and `GetMgmtPortFromAddr(status, a)` is the
IfName of the first port in status order that is management-eligible and holds `a`
(an address `Equal` to it); when every address occurs on at most one port and no port
name is given, that is the IfName of the port `a` was selected from. -/
theorem selection_reverse_lookup (gs : DeviceNetworkStatus) (pickNum : Int) (port : String)
    (freeOnly includeLinkLocal : Bool) (a : IP) (_hpick : 0 ≤ pickNum)
    (hret : getLocalAddrImpl gs pickNum port freeOnly includeLinkLocal = GoResult.ret a) :
    (∃ us ∈ gs.Ports, mgmtEligible gs.Version us = true ∧
      ∃ i ∈ us.AddrInfoList, i.Addr = a) ∧
    (∃ p ∈ gs.Ports,
      gs.Ports.find? (fun us => mgmtEligible gs.Version us && holdsAddr a us) = some p ∧
      mgmtEligible gs.Version p = true ∧ holdsAddr a p = true ∧
      GetMgmtPortFromAddr gs a = p.IfName) ∧
    (port = "" → addrsOnOnePort gs →
      ∃ us ∈ gs.Ports, selectedPort gs.Version freeOnly "" us = true ∧
        (∃ i ∈ us.AddrInfoList, qualifies includeLinkLocal i = true ∧ i.Addr = a) ∧
        GetMgmtPortFromAddr gs a = us.IfName) := by
  have hmem := getLocalAddrImpl_ret_mem gs pickNum port freeOnly includeLinkLocal a hret
  obtain ⟨us, hus, hsel, i, hi, hq, hia⟩ := mem_selectedAddrs _ _ _ _ _ _ hmem
  have helig := selectedPort_eligible _ _ _ _ hsel
  have hholds : holdsAddr a us = true := by
    rw [← hia]
    exact holdsAddr_of_mem us i hi
  have hfind : ∃ p, gs.Ports.find? (fun us => mgmtEligible gs.Version us && holdsAddr a us) =
      some p := by
    cases hf : gs.Ports.find? (fun us => mgmtEligible gs.Version us && holdsAddr a us) with
    | some p => exact ⟨p, rfl⟩
    | none =>
      have := List.find?_eq_none.mp hf us hus
      simp [helig, hholds] at this
  obtain ⟨p, hp⟩ := hfind
  have hpmem : p ∈ gs.Ports := List.mem_of_find?_eq_some hp
  have hpprop := List.find?_some hp
  simp only [Bool.and_eq_true] at hpprop
  have hlookup : GetMgmtPortFromAddr gs a = p.IfName := by
    unfold GetMgmtPortFromAddr
    rw [getMgmtPortFromAddr_loop_eq, hp]
  refine ⟨⟨us, hus, helig, i, hi, hia⟩, ⟨p, hpmem, hp, hpprop.1, hpprop.2, hlookup⟩, ?_⟩
  intro hport honce
  have hres : resolvedIfName gs port = "" := by
    rw [hport]
    simp [resolvedIfName]
  rw [hres] at hsel
  have hEq : p = us := honce p hpmem us hus a hpprop.2 hholds
  exact ⟨us, hus, hsel, ⟨i, hi, hq, hia⟩, by rw [hlookup, hEq]⟩

/-- Witness of C23 on the scenario: pick 1 without port name returns `10.0.1.5`, which the
reverse lookup resolves to `eth1`, the port it was selected from. -/
theorem selection_reverse_lookup_witness :
    ∃ us ∈ scenario.Ports, selectedPort scenario.Version false "" us = true ∧
      (∃ i ∈ us.AddrInfoList, qualifies false i = true ∧ i.Addr = [10, 0, 1, 5]) ∧
      GetMgmtPortFromAddr scenario [10, 0, 1, 5] = us.IfName :=
  (selection_reverse_lookup scenario 1 "" false false [10, 0, 1, 5] (by decide)
    (by decide)).2.2 rfl
    scenario_addrsOnOnePort

/-- C24: with link-local addresses excluded, `getInterfaceAndAddr` returns an error exactly
when `getInterfaceAddr` does, for every status, free flag and port, and the addresses of
the records it returns, concatenated in order, are the address list of
`getInterfaceAddr`. -/
theorem walkers_agree_noLinkLocal (gs : DeviceNetworkStatus) (free : Bool) (port : String) :
    ((getInterfaceAndAddr gs free port false).2.isSome =
      (getInterfaceAddr gs free port false).2.isSome) ∧
    recordAddrs (getInterfaceAndAddr gs free port false).1 =
      (getInterfaceAddr gs free port false).1 := by
  have hrec := recordAddrs_links_eq gs.Version free (resolvedIfName gs port) gs.Ports
  rw [getInterfaceAndAddr_noLinkLocal_eq, getInterfaceAddr_fst, getInterfaceAddr_snd]
  by_cases hX : (gs.Ports.filter
      (fun us => selectedPort gs.Version free (resolvedIfName gs port) us &&
        us.AddrInfoList.any (fun a => !a.Addr.IsLinkLocalUnicast))).map linkRecord = []
  · rw [if_pos hX]
    rw [hX] at hrec
    have hnil : selectedAddrs gs.Version free (resolvedIfName gs port) false gs.Ports = [] :=
      hrec.symm
    rw [if_pos hnil, hnil]
    exact ⟨rfl, rfl⟩
  · rw [if_neg hX]
    have hne : selectedAddrs gs.Version free (resolvedIfName gs port) false gs.Ports ≠ [] := by
      intro hnil
      rw [hnil] at hrec
      apply hX
      rw [List.map_eq_nil_iff, List.filter_eq_nil_iff]
      intro us hus hp
      simp only [Bool.and_eq_true] at hp
      obtain ⟨i, hi, hq⟩ := List.any_eq_true.mp hp.2
      have hmem : i.Addr ∈ recordAddrs ((gs.Ports.filter
          (fun us => selectedPort gs.Version free (resolvedIfName gs port) us &&
            us.AddrInfoList.any (fun a => !a.Addr.IsLinkLocalUnicast))).map linkRecord) := by
        unfold recordAddrs
        rw [List.mem_flatMap]
        refine ⟨linkRecord us, List.mem_map.mpr ⟨us, List.mem_filter.mpr ⟨hus, ?_⟩, rfl⟩, ?_⟩
        · simp [hp.1, hp.2]
        · exact List.mem_map.mpr ⟨i, List.mem_filter.mpr ⟨hi, hq⟩, rfl⟩
      rw [hrec] at hmem
      exact List.not_mem_nil _ hmem
    rw [if_neg hne]
    exact ⟨rfl, hrec⟩

end Zedrouter
